import Mathlib

/-!
# Verification of the Jarwik intent/scheduling core

Shallow embedding of the TypeScript sources:
* `src/utils/cache.ts` — the natural-language time resolver `parseNaturalTime`
  (with its helper `extractNumber`);
* `src/utils/lightweightParser.ts` — the rule-based intent classifier
  `parseIntentLightweight`;
* `src/lib/services/gmail.ts` — the scheduling engine (`findFreeTime`,
  `checkConflicts`, `smartSchedule`, `rescheduleEvent`, `updateEvent`,
  `filterSlotsWithBuffer`) over an abstract calendar event store.

Instants are modelled as `Int` milliseconds since the Unix epoch (the value of
JS `Date.getTime()`); JS strings are modelled as `List Char` where character
level processing is needed.  External API calls (Google calendar queries, the
engine-defined `new Date(string)` parser) are modelled as explicit parameters,
documented at each definition.
-/

namespace Jarwik

/-! ## Character primitives (JS string semantics, ASCII fragment) -/

/-- JS whitespace as matched by the `\s` regex class and trimmed by
`String.prototype.trim` (ASCII fragment; the sources never produce the
exotic Unicode space characters). -/
def isWsChar (c : Char) : Bool :=
  c = ' ' || c = '\t' || c = '\n' || c = '\r' || c = '\x0b' || c = '\x0c'

/-- The `\d` regex class. -/
def isDigitChar (c : Char) : Bool :=
  c = '0' || c = '1' || c = '2' || c = '3' || c = '4' ||
  c = '5' || c = '6' || c = '7' || c = '8' || c = '9'

/-- Numeric value of a decimal digit character. -/
def digitVal (c : Char) : Nat := c.toNat - 48

/-- Value of a run of decimal digits, as computed by JS `parseInt` on a
digit-only string. -/
def digitsVal (ds : List Char) : Nat := ds.foldl (fun a c => a * 10 + digitVal c) 0

/-- JS `String.prototype.toLowerCase`, ASCII fragment. -/
def lcChar (c : Char) : Char :=
  if 'A' ≤ c ∧ c ≤ 'Z' then Char.ofNat (c.toNat + 32) else c

def lowerChars (cs : List Char) : List Char := cs.map lcChar

/-- JS `String.prototype.trim`. -/
def trimChars (cs : List Char) : List Char :=
  ((cs.dropWhile isWsChar).reverse.dropWhile isWsChar).reverse

/-- `pat` is a prefix of `cs` (JS `String.prototype.startsWith`). -/
def startsWithChars : List Char → List Char → Bool
  | [], _ => true
  | _ :: _, [] => false
  | p :: ps, c :: cs => p = c && startsWithChars ps cs

/-- `cs` contains `pat` as a contiguous substring
(JS `String.prototype.includes`). -/
def hasSub : List Char → List Char → Bool
  | [], pat => startsWithChars pat []
  | c :: rest, pat => startsWithChars pat (c :: rest) || hasSub rest pat

/-! ## Time arithmetic (JS `Date` in a UTC server timezone)

The source computes wall-clock components with `Date.getHours`/`getMinutes`,
which use the server's local timezone; the code's own comments assume the
server runs in UTC (it adds the IST offset by hand), and we model that. -/

/-- IST offset (UTC+5:30) in milliseconds, hard-coded in the source. -/
def istOffsetMs : Int := 19800000

def msPerDay : Int := 86400000

/-- Start of the UTC day containing instant `t`: the effect of
`d.setUTCHours(0,0,0,0)` on a JS `Date`. -/
def utcDayStart (t : Int) : Int := t - t.emod msPerDay

/-- `d.getHours()` for a UTC server. -/
def utcHours (t : Int) : Int := (t.fdiv 3600000).emod 24

/-- `d.getMinutes()` for a UTC server. -/
def utcMinutes (t : Int) : Int := (t.fdiv 60000).emod 60

/-! ## `extractNumber` (cache.ts)

`function extractNumber(text)` returns the capture of the first match of
`/(?:in\s+)?(\d+)\s*(?:minute|hour|day)/i`, or `null`.  A match anchors at a
maximal digit run followed (after optional whitespace) by one of the unit
words; the optional `in`-prefix does not affect the capture.  The scan below
walks positions left to right exactly as the JS engine does; starting inside
a digit run only retries a shorter run against the same (failing) remainder,
so the first successful position is the start of the first such run. -/

def unitFollows (cs : List Char) : Bool :=
  let r := cs.dropWhile isWsChar
  startsWithChars "minute".data r || startsWithChars "hour".data r ||
    startsWithChars "day".data r

def extractNumber : List Char → Option Nat
  | [] => none
  | c :: cs =>
    if isDigitChar c then
      if unitFollows ((c :: cs).dropWhile isDigitChar) then
        some (digitsVal ((c :: cs).takeWhile isDigitChar))
      else extractNumber cs
    else extractNumber cs

/-! ## The clock-time regex

`/(\d{1,2}):?(\d{2})?\s*(am|pm)?/i` is used (against the lower-cased input)
both in the `tomorrow` branch and in the bare-time branch of
`parseNaturalTime`.  Only the first mandatory atom `\d{1,2}` constrains the
match position, so the first match starts at the first digit; every later
piece is optional and greedy, and no choice ever forces backtracking into an
earlier one.  The result is `(hours, minutes, am/pm)` with minutes defaulting
to `0` (`parseInt(timeMatch[2] || '0')`); the marker is `some false` for
`am`, `some true` for `pm`. -/

def ampmAt (cs : List Char) : Option Bool :=
  if startsWithChars "am".data cs then some false
  else if startsWithChars "pm".data cs then some true
  else none

def matchClock : List Char → Option (Nat × Nat × Option Bool)
  | [] => none
  | c :: cs =>
    if isDigitChar c then
      -- `\d{1,2}`, greedy
      let hrest : Nat × List Char :=
        match cs with
        | c2 :: cs2 =>
          if isDigitChar c2 then (digitVal c * 10 + digitVal c2, cs2)
          else (digitVal c, cs)
        | [] => (digitVal c, [])
      -- `:?`
      let r1 : List Char :=
        match hrest.2 with
        | ':' :: r => r
        | r => r
      -- `(\d{2})?`: exactly two digits, or nothing
      let mrest : Nat × List Char :=
        match r1 with
        | a :: b :: r =>
          if isDigitChar a && isDigitChar b then (digitVal a * 10 + digitVal b, r)
          else (0, r1)
        | _ => (0, r1)
      -- `\s*` then `(am|pm)?`
      some (hrest.1, mrest.1, ampmAt (mrest.2.dropWhile isWsChar))
    else matchClock cs

/-! ## `parseNaturalTime` (cache.ts)

`export function parseNaturalTime(timeStr: string): Date | null`.

The ambient `new Date()` is the explicit parameter `now`; the final fallback
`new Date(timeStr)` (an engine-defined general date parser, external to the
algorithm) is the explicit parameter `dateParse`.  The source's five
early-return blocks become an `Option.orElse` chain: each block returns a
value exactly when its full condition holds and otherwise lets control fall
through, which is the same thing.  Note the JS truthiness test
`if (minutes) { ... }`: an extracted `0` is falsy and falls through. -/

def tryRelativeUnit (unitSub : List Char) (mult : Int) (norm : List Char)
    (now : Int) : Option Int :=
  if hasSub norm unitSub then
    match extractNumber norm with
    | some n => if n = 0 then none else some (now + (n : Int) * mult)
    | none => none
  else none

/-- The `tomorrow` branch: `tomorrow.setUTCDate(getUTCDate()+1)` adds exactly
one day; `setUTCHours(hours - 5, minutes - 30, 0, 0)` lands on the stated
IST wall-clock time (JS normalizes out-of-range components arithmetically). -/
def tryTomorrow (norm : List Char) (now : Int) : Option Int :=
  if hasSub norm "tomorrow".data then
    let tomorrow := now + msPerDay
    some (match matchClock norm with
      | some (h0, m, ap) =>
        let h : Nat :=
          if ap = some true ∧ h0 ≠ 12 then h0 + 12
          else if ap = some false ∧ h0 = 12 then 0
          else h0
        utcDayStart tomorrow + ((h : Int) - 5) * 3600000 + ((m : Int) - 30) * 60000
      | none =>
        -- default 9 AM IST = 3:30 AM UTC
        utcDayStart tomorrow + 3 * 3600000 + 30 * 60000)
  else none

/-- The `next week` branch: `+7` days at 9 AM IST (3:30 UTC), ignoring any
embedded time. -/
def tryNextWeek (norm : List Char) (now : Int) : Option Int :=
  if hasSub norm "next week".data then
    some (utcDayStart (now + 7 * msPerDay) + 3 * 3600000 + 30 * 60000)
  else none

/-- The bare "specific time today" branch, including the AM/PM
disambiguation against the current IST wall-clock minutes and the
roll-to-tomorrow adjustment. -/
def tryBareTime (norm : List Char) (now : Int) : Option Int :=
  match matchClock norm with
  | none => none
  | some (h0, m, ap) =>
    let nowIST := now + istOffsetMs
    let h : Nat :=
      if ap = none ∧ h0 < 12 then
        let currentTotalMinutes := utcHours nowIST * 60 + utcMinutes nowIST
        if ((h0 * 60 + m : Nat) : Int) ≤ currentTotalMinutes then h0 + 12 else h0
      else if ap = some true ∧ h0 ≠ 12 then h0 + 12
      else if ap = some false ∧ h0 = 12 then 0
      else h0
    let result := utcDayStart now + ((h : Int) - 5) * 3600000 + ((m : Int) - 30) * 60000
    if result ≤ now then some (result + msPerDay) else some result

def parseNaturalTime (dateParse : String → Option Int) (timeStr : String)
    (now : Int) : Option Int :=
  if timeStr = "" then none
  else
    let normalizedTime := trimChars (lowerChars timeStr.data)
    ((((((tryRelativeUnit "minute".data 60000 normalizedTime now).orElse fun _ =>
      tryRelativeUnit "hour".data 3600000 normalizedTime now).orElse fun _ =>
      tryRelativeUnit "day".data msPerDay normalizedTime now).orElse fun _ =>
      tryTomorrow normalizedTime now).orElse fun _ =>
      tryNextWeek normalizedTime now).orElse fun _ =>
      tryBareTime normalizedTime now).orElse fun _ =>
      dateParse timeStr

/-! ## Regex machinery for the lightweight classifier

`parseIntentLightweight` tests each message against fixed regex literals; all
of them are case-insensitive, so we match against the lower-cased character
list (the classes in the email pattern cover both cases anyway).  Matchers are
written in continuation style: a piece of a pattern consumes part of the
input and hands every admissible remainder to the continuation, so the
disjunction over continuations is exactly the existence semantics of a
backtracking regex engine.  A full pattern is a matcher applied to the
always-true continuation, and `existsMatch` tries it at every start position
(JS `String.prototype.match` / `RegExp.prototype.test` with no anchors). -/

abbrev Cont := List Char → Bool

def trueCont : Cont := fun _ => true

/-- A literal word. -/
def litC (pat : List Char) (k : Cont) : Cont := fun cs =>
  startsWithChars pat cs && k (cs.drop pat.length)

/-- Alternation of literal words. -/
def altC (ps : List (List Char)) (k : Cont) : Cont := fun cs =>
  ps.any fun p => litC p k cs

/-- `.` — any character except a line break. -/
def anyC (k : Cont) : Cont := fun cs =>
  match cs with
  | c :: rest => !(c = '\n' || c = '\r') && k rest
  | [] => false

/-- `.{0,n}`. -/
def gapC (n : Nat) (k : Cont) : Cont := fun cs =>
  k cs ||
    match n with
    | 0 => false
    | n' + 1 =>
      match cs with
      | [] => false
      | c :: rest => !(c = '\n' || c = '\r') && gapC n' k rest

/-- `\s*`. -/
def wsStarC (k : Cont) : List Char → Bool
  | [] => k []
  | c :: rest => k (c :: rest) || (isWsChar c && wsStarC k rest)

/-- `\s+`. -/
def wsPlusC (k : Cont) : List Char → Bool
  | [] => false
  | c :: rest => isWsChar c && wsStarC k rest

/-- `\d`. -/
def digitC (k : Cont) : Cont := fun cs =>
  match cs with
  | c :: rest => isDigitChar c && k rest
  | [] => false

/-- An optional piece (`X?`). -/
def optC (f : Cont → Cont) (k : Cont) : Cont := fun cs => f k cs || k cs

/-- `\d{lo,hi}`. -/
def digitsRangeC : Nat → Nat → Cont → Cont
  | lo, hi, k => fun cs =>
    (decide (lo = 0) && k cs) ||
      match hi, cs with
      | hi' + 1, c :: rest => isDigitChar c && digitsRangeC (lo - 1) hi' k rest
      | _, _ => false

def existsMatch (p : List Char → Bool) : List Char → Bool
  | [] => p []
  | c :: rest => p (c :: rest) || existsMatch p rest

/-! ### The email-address shape

`/[a-zA-Z0-9._%+-]+@[a-zA-Z0-9.-]+\.[a-zA-Z]{2,}/`.  For the existence test
it is enough to find an `@` preceded by one local character (a longer local
part only extends into the surrounding text) and followed by a nonempty
domain run, a literal dot and two letters (a longer TLD likewise). -/

def isAsciiAlpha (c : Char) : Bool :=
  (decide ('a' ≤ c) && decide (c ≤ 'z')) || (decide ('A' ≤ c) && decide (c ≤ 'Z'))

def isLocalChar (c : Char) : Bool :=
  isAsciiAlpha c || isDigitChar c || c = '.' || c = '_' || c = '%' || c = '+' || c = '-'

def isDomainChar (c : Char) : Bool :=
  isAsciiAlpha c || isDigitChar c || c = '.' || c = '-'

/-- After at least one domain character: more domain characters, then a
literal `.` followed by two letters. -/
def checkDomTail : List Char → Bool
  | [] => false
  | c :: rest =>
    (c = '.' &&
      match rest with
      | a :: b :: _ => isAsciiAlpha a && isAsciiAlpha b
      | _ => false) ||
    (isDomainChar c && checkDomTail rest)

/-- `[a-zA-Z0-9.-]+\.[a-zA-Z]{2,}`, anchored here. -/
def checkAfterAt : List Char → Bool
  | [] => false
  | c :: rest => isDomainChar c && checkDomTail rest

/-- The email shape anchored at the position of `c`: `c` is a local
character, immediately followed by `@` and a well-shaped domain (a longer
local part or TLD only extends into the surrounding text, so this window is
enough for the existence test). -/
def emailWindow (c : Char) : List Char → Bool
  | '@' :: r2 => isLocalChar c && checkAfterAt r2
  | _ => false

/-- The message contains an email-shaped token (the second, catch-all email
pattern of the classifier). -/
def hasEmailToken : List Char → Bool
  | [] => false
  | c :: rest => emailWindow c rest || hasEmailToken rest

/-- `[a-zA-Z0-9._%+-]*@...` continuing an already-started local part:
the local class excludes `@`, so the run ends exactly at the `@`. -/
def afterLocalRun : List Char → Bool
  | [] => false
  | c :: r => if c = '@' then checkAfterAt r else (isLocalChar c && afterLocalRun r)

/-- The full email shape anchored at this position. -/
def emailAt : List Char → Bool
  | c :: r => isLocalChar c && afterLocalRun r
  | [] => false

/-- First email pattern:
`/(?:send|mail|email).{0,30}(?:to|at)\s+EMAIL/i`. -/
def emailP1 (low : List Char) : Bool :=
  existsMatch
    (altC ["send".data, "mail".data, "email".data]
      (gapC 30 (altC ["to".data, "at".data] (wsPlusC emailAt)))) low

/-! ### Pattern families, in the source's order -/

/-- `/(?:set|create|add).{0,20}reminder/i` and `/remind.{0,20}me/i`. -/
def reminderMatch (low : List Char) : Bool :=
  existsMatch (altC ["set".data, "create".data, "add".data]
    (gapC 20 (litC "reminder".data trueCont))) low ||
  existsMatch (litC "remind".data (gapC 20 (litC "me".data trueCont))) low

/-- `/(?:schedule|create|add|book|set up).{0,20}(?:meeting|event|appointment|call)/i`
and `/(?:meeting|event|appointment).{0,30}(?:at|on|for|tomorrow|today|next)/i`. -/
def calendarMatch (low : List Char) : Bool :=
  existsMatch (altC ["schedule".data, "create".data, "add".data, "book".data, "set up".data]
    (gapC 20 (altC ["meeting".data, "event".data, "appointment".data, "call".data] trueCont))) low ||
  existsMatch (altC ["meeting".data, "event".data, "appointment".data]
    (gapC 30 (altC ["at".data, "on".data, "for".data, "tomorrow".data, "today".data, "next".data] trueCont))) low

/-- `/(?:reschedule|move|change).{0,30}(?:meeting|event|appointment)/i` and
`/(?:reschedule|move|change time).{0,50}(?:to|for|at)/i`. -/
def rescheduleMatch (low : List Char) : Bool :=
  existsMatch (altC ["reschedule".data, "move".data, "change".data]
    (gapC 30 (altC ["meeting".data, "event".data, "appointment".data] trueCont))) low ||
  existsMatch (altC ["reschedule".data, "move".data, "change time".data]
    (gapC 50 (altC ["to".data, "for".data, "at".data] trueCont))) low

def dayWords : List (List Char) :=
  ["today".data, "tomorrow".data, "monday".data, "tuesday".data, "wednesday".data,
   "thursday".data, "friday".data, "saturday".data, "sunday".data]

/-- The three `schedulePatterns`. -/
def scheduleMatch (low : List Char) : Bool :=
  -- /(?:how.s|what.s|show).{0,20}(?:my\s+)?schedule.{0,30}(?:for\s+)?(DAY)/i
  existsMatch (fun cs =>
    (litC "how".data (anyC (litC "s".data
        (gapC 20 (optC (fun k => litC "my".data (wsPlusC k))
          (litC "schedule".data (gapC 30 (optC (fun k => litC "for".data (wsPlusC k))
            (altC dayWords trueCont)))))))) cs) ||
    (litC "what".data (anyC (litC "s".data
        (gapC 20 (optC (fun k => litC "my".data (wsPlusC k))
          (litC "schedule".data (gapC 30 (optC (fun k => litC "for".data (wsPlusC k))
            (altC dayWords trueCont)))))))) cs) ||
    (litC "show".data
        (gapC 20 (optC (fun k => litC "my".data (wsPlusC k))
          (litC "schedule".data (gapC 30 (optC (fun k => litC "for".data (wsPlusC k))
            (altC dayWords trueCont)))))) cs)) low ||
  -- /(?:my\s+)?schedule.{0,20}(?:for\s+)?(DAY)/i
  existsMatch (optC (fun k => litC "my".data (wsPlusC k))
    (litC "schedule".data (gapC 20 (optC (fun k => litC "for".data (wsPlusC k))
      (altC dayWords trueCont))))) low ||
  -- /(?:what|how).{0,20}(?:do\s+i\s+have|on\s+my\s+calendar).{0,30}(DAY)/i
  existsMatch (altC ["what".data, "how".data]
    (gapC 20 (fun cs =>
      (litC "do".data (wsPlusC (litC "i".data (wsPlusC (litC "have".data
        (gapC 30 (altC dayWords trueCont)))))) cs) ||
      (litC "on".data (wsPlusC (litC "my".data (wsPlusC (litC "calendar".data
        (gapC 30 (altC dayWords trueCont)))))) cs)))) low

/-- The four `availabilityPatterns`; `timeG` is the time-slot group
`(\d{1,2}:?\d{0,2}\s*(?:am|pm)?)`. -/
def availabilityMatch (low : List Char) : Bool :=
  let timeG : Cont → Cont := fun k =>
    digitC (optC digitC
      (optC (fun k' => litC ":".data k')
        (optC digitC (optC digitC
          (wsStarC (fun cs => litC "am".data k cs || litC "pm".data k cs || k cs))))))
  let timeOrDay : Cont → Cont := fun k => fun cs =>
    timeG k cs || litC "today".data k cs || litC "tomorrow".data k cs
  -- /(?:is|am).{0,20}(?:my\s+)?(TIME).{0,20}free.{0,20}(today|tomorrow)/i
  existsMatch (altC ["is".data, "am".data]
    (gapC 20 (optC (fun k => litC "my".data (wsPlusC k))
      (timeG (gapC 20 (litC "free".data
        (gapC 20 (altC ["today".data, "tomorrow".data] trueCont)))))))) low ||
  -- /is.{0,20}(TIME|today|tomorrow).{0,20}(?:at\s+)?(TIME|today|tomorrow)?.{0,20}free/i
  existsMatch (litC "is".data
    (gapC 20 (timeOrDay (gapC 20 (optC (fun k => litC "at".data (wsPlusC k))
      (optC timeOrDay (gapC 20 (litC "free".data trueCont)))))))) low ||
  -- /(?:am\s+i\s+)?(?:available|free).{0,20}(?:at\s+)?(TIME).{0,20}(today|tomorrow)?/i
  existsMatch (optC (fun k => litC "am".data (wsPlusC (litC "i".data (wsPlusC k))))
    (altC ["available".data, "free".data]
      (gapC 20 (optC (fun k => litC "at".data (wsPlusC k))
        (timeG (gapC 20 (optC (fun k => altC ["today".data, "tomorrow".data] k)
          trueCont))))))) low ||
  -- /do\s+i\s+have.{0,30}(?:at\s+)?(TIME).{0,20}(today|tomorrow)/i
  existsMatch (litC "do".data (wsPlusC (litC "i".data (wsPlusC (litC "have".data
    (gapC 30 (optC (fun k => litC "at".data (wsPlusC k))
      (timeG (gapC 20 (altC ["today".data, "tomorrow".data] trueCont)))))))))) low

/-- `/(?:check|any).{0,20}conflicts?.{0,30}(?:at|on|for)/i` and
`/(?:check|see).{0,20}availability.{0,30}(?:at|on|for)/i`. -/
def conflictsMatch (low : List Char) : Bool :=
  existsMatch (altC ["check".data, "any".data]
    (gapC 20 (litC "conflict".data (optC (fun k => litC "s".data k)
      (gapC 30 (altC ["at".data, "on".data, "for".data] trueCont)))))) low ||
  existsMatch (altC ["check".data, "see".data]
    (gapC 20 (litC "availability".data
      (gapC 30 (altC ["at".data, "on".data, "for".data] trueCont))))) low

/-- `/(?:find|suggest|when).{0,20}(?:best|optimal|good).{0,20}time/i` and
`/(?:find|when).{0,30}(?:free|available).{0,20}time/i`. -/
def optimalTimeMatch (low : List Char) : Bool :=
  existsMatch (altC ["find".data, "suggest".data, "when".data]
    (gapC 20 (altC ["best".data, "optimal".data, "good".data]
      (gapC 20 (litC "time".data trueCont))))) low ||
  existsMatch (altC ["find".data, "when".data]
    (gapC 30 (altC ["free".data, "available".data]
      (gapC 20 (litC "time".data trueCont))))) low

/-- `/(?:send|text).{0,20}(?:sms|message).{0,50}(?:to|phone|number).{0,10}(\+?\d{10,15})/i`
and `/(?:text|sms).{0,10}(\+?\d{10,15})/i`. -/
def smsMatch (low : List Char) : Bool :=
  let phone : Cont → Cont := fun k =>
    optC (fun k' => litC "+".data k') (digitsRangeC 10 15 k)
  existsMatch (altC ["send".data, "text".data]
    (gapC 20 (altC ["sms".data, "message".data]
      (gapC 50 (altC ["to".data, "phone".data, "number".data]
        (gapC 10 (phone trueCont))))))) low ||
  existsMatch (altC ["text".data, "sms".data] (gapC 10 (phone trueCont))) low

/-! ## `parseIntentLightweight` (lightweightParser.ts)

The closed set of intent tags (§3 of the design) as an inductive type; the
source uses string literals. -/

inductive Intent where
  | send_email | set_reminder | create_event | reschedule | check_schedule
  | check_availability | check_conflicts | find_time | send_sms | general_chat
deriving DecidableEq

structure LightweightIntent where
  intent : Intent
  confidence : ℚ
  needsAI : Bool
deriving DecidableEq

/-- The condition under which the email block fires: the loop over the two
email patterns returns (for the fields modelled here, identically from
either iteration) exactly when one of the patterns matches and the
lower-cased message contains one of the substrings
`'send'` / `'mail'` / `'email'`. -/
def emailIntentMatch (msg lowerMessage : List Char) : Bool :=
  (emailP1 msg || hasEmailToken msg) &&
    (hasSub lowerMessage "send".data || hasSub lowerMessage "mail".data ||
      hasSub lowerMessage "email".data)

/-- `export function parseIntentLightweight(message)`; the model covers the
fields the claims concern (`intent`, `confidence`, `needsAI`) — the extracted
`entities`/`parameters` maps are not modelled. -/
def parseIntentLightweight (message : String) : LightweightIntent :=
  let msg := lowerChars message.data          -- case-insensitive matching on the original
  let lowerMessage := trimChars msg           -- message.toLowerCase().trim()
  if emailIntentMatch msg lowerMessage then
    ⟨.send_email, 0.95, false⟩
  else if reminderMatch msg then ⟨.set_reminder, 0.9, false⟩
  else if calendarMatch msg then ⟨.create_event, 0.85, false⟩
  else if rescheduleMatch msg then ⟨.reschedule, 0.9, false⟩
  else if scheduleMatch msg then ⟨.check_schedule, 0.9, false⟩
  else if availabilityMatch msg then ⟨.check_availability, 0.9, false⟩
  else if conflictsMatch msg then ⟨.check_conflicts, 0.85, false⟩
  else if optimalTimeMatch msg then ⟨.find_time, 0.8, false⟩
  else if smsMatch msg then ⟨.send_sms, 0.9, false⟩
  else ⟨.general_chat, 0.3, true⟩

/-! ## The scheduling engine (gmail.ts, `CalendarServiceImpl`)

The external Google calendar is modelled as a list of events (`store`).
Each external API call can independently fail; `FetchFlags` records, per call
site, whether the call succeeds — `false` makes the call fail, and the
failure is caught exactly where the source catches it. -/

structure CalendarEvent where
  id : String
  title : String
  description : String
  start : Int
  /-- The source's `end` field (`end` is a Lean keyword). -/
  stop : Int
  attendees : List String
  location : Option String
deriving DecidableEq

/-- Success of each external calendar API call. -/
structure FetchFlags where
  /-- `calendar.events.list` inside `checkConflicts`'s ranged `getEvents`. -/
  eventsRangeOk : Bool
  /-- `calendar.freebusy.query` inside `findFreeTime`. -/
  freebusyOk : Bool
  /-- the unranged `getEvents` lookups in `rescheduleEvent`. -/
  eventsAllOk : Bool
  /-- `calendar.events.patch` inside `updateEvent`. -/
  updateOk : Bool
deriving DecidableEq

/-- `getEvents(userId, timeMin, timeMax)`: the external `events.list` query is
modelled as returning the stored events overlapping the window (an event is
listed when it ends after `timeMin` and starts before `timeMax`).  The
source catches every error and returns `[]`. -/
def getEvents (ok : Bool) (store : List CalendarEvent) (timeMin timeMax : Int) :
    List CalendarEvent :=
  if ok then store.filter (fun e => decide (timeMin < e.stop) && decide (e.start < timeMax))
  else []

/-- `getEvents(userId)` with no range (the lookup in `rescheduleEvent`);
`[]` when the fetch fails. -/
def getEventsAll (ok : Bool) (store : List CalendarEvent) : List CalendarEvent :=
  if ok then store else []

/-- The external `freebusy.query`: busy periods of events intersecting the
window, clipped to it. -/
def busyQuery (store : List CalendarEvent) (timeMin timeMax : Int) :
    List (Int × Int) :=
  (store.filter (fun e => decide (e.start < timeMax) && decide (timeMin < e.stop))).map
    fun e => (max e.start timeMin, min e.stop timeMax)

/-- The scan loop of `findFreeTime`: candidate start times advance in
30-minute steps while before `endDate`; a candidate is kept when its
`[t, t + duration]` window overlaps no busy interval
(`currentTime < busyEnd && slotEnd > busyStart`). -/
def scanSlots (busy : List (Int × Int)) (duration : Int) (currentTime endDate : Int) :
    List Int :=
  if currentTime < endDate then
    let slotEnd := currentTime + duration * 60000
    let isSlotFree := !(busy.any fun b => decide (currentTime < b.2) && decide (slotEnd > b.1))
    (if isSlotFree then [currentTime] else []) ++
      scanSlots busy duration (currentTime + 1800000) endDate
  else []
termination_by (endDate - currentTime).toNat
decreasing_by
  omega

/-- `findFreeTime(userId, duration, timeMin, timeMax)` (duration in minutes):
queries free/busy, scans, and returns the first 10 free slots; its own catch
returns `[]` when the free/busy query fails. -/
def findFreeTime (flags : FetchFlags) (store : List CalendarEvent)
    (duration timeMin timeMax : Int) : List Int :=
  if flags.freebusyOk then
    (scanSlots (busyQuery store timeMin timeMax) duration timeMin timeMax).take 10
  else []

structure ConflictResult where
  hasConflicts : Bool
  conflicts : List CalendarEvent
  /-- optional in the source (`suggestions?: Date[]`); absent = `[]`. -/
  suggestions : List Int
  message : String
deriving DecidableEq

/-- `Math.ceil(a / b)` for positive `b`. -/
def ceilDiv (a b : Int) : Int := -((-a).fdiv b)

/-- `checkConflicts(userId, startTime, endTime)`.  The surrounding
`try/catch` (message `'Error checking conflicts'`) is unreachable:
`getEvents` and `findFreeTime` catch their own errors and return empty
results, and nothing else in the body can throw — so a failing fetch
surfaces here as an empty event list, not as the catch branch. -/
def checkConflicts (flags : FetchFlags) (store : List CalendarEvent)
    (startTime endTime : Int) : ConflictResult :=
  let bufferStart := startTime - 30 * 60000
  let bufferEnd := endTime + 30 * 60000
  let existingEvents := getEvents flags.eventsRangeOk store bufferStart bufferEnd
  let conflicts := existingEvents.filter fun e =>
    decide (startTime < e.stop) && decide (endTime > e.start)
  if conflicts.length > 0 then
    let duration := ceilDiv (endTime - startTime) 60000
    let suggestions := findFreeTime flags store duration startTime (startTime + 7 * msPerDay)
    { hasConflicts := true, conflicts := conflicts, suggestions := suggestions.take 5,
      message := "Found " ++ toString conflicts.length ++ " conflict(s). Suggested " ++
        toString suggestions.length ++ " alternative times." }
  else
    { hasConflicts := false, conflicts := conflicts, suggestions := [],
      message := "No conflicts detected. Time slot is available." }

/-- `createEvent(userId, input)`: the external insert; the store assigns the
id (`freshId`).  Modelled as always succeeding — failures of the insert are
not exercised by any claim. -/
def createEvent (freshId title description : String) (startT endT : Int)
    (attendees : List String) (location : Option String) : CalendarEvent :=
  { id := freshId, title := title, description := description,
    start := startT, stop := endT, attendees := attendees, location := location }

structure SmartScheduleInput where
  title : String
  description : String
  /-- minutes. -/
  duration : Int
  attendees : List String
  location : Option String
  preferredTimes : List Int
  /-- `(earliest, latest)`. -/
  timeRange : Option (Int × Int)
  /-- `(start, end)` hours of day. -/
  workingHours : Option (Int × Int)
  /-- minutes. -/
  bufferTime : Option Int

structure SmartScheduleResult where
  success : Bool
  event : Option CalendarEvent
  /-- optional in the source; `none` when the field is absent from the
  returned object. -/
  alternativeTimes : Option (List Int)
  message : String
deriving DecidableEq

/-- `filterSlotsWithBuffer(userId, slots, duration, bufferTime)`: keep the
slots whose expanded window `[slot - buffer, slot + duration + buffer]` is
conflict-free (the source's accumulating loop is this filter). -/
def filterSlotsWithBuffer (flags : FetchFlags) (store : List CalendarEvent)
    (slots : List Int) (duration bufferTime : Int) : List Int :=
  slots.filter fun slot =>
    !(checkConflicts flags store (slot - bufferTime * 60000)
        (slot + duration * 60000 + bufferTime * 60000)).hasConflicts

/-- The preferred-times loop of `smartSchedule`: the first conflict-free
preferred time is booked immediately (the returned object carries no
`alternativeTimes` field).  The source also pushes each failing check's
suggestions into a local `candidateTimes` array that is never read
afterwards (dead code, not modelled). -/
def tryPreferredTimes (flags : FetchFlags) (store : List CalendarEvent)
    (freshId : String) (input : SmartScheduleInput) :
    List Int → Option SmartScheduleResult
  | [] => none
  | preferredTime :: rest =>
    let endTime := preferredTime + input.duration * 60000
    if (checkConflicts flags store preferredTime endTime).hasConflicts then
      tryPreferredTimes flags store freshId input rest
    else
      some { success := true,
             event := some (createEvent freshId input.title input.description
               preferredTime endTime input.attendees input.location),
             alternativeTimes := none,
             message := "Event scheduled successfully for " ++ toString preferredTime }

/-- `smartSchedule(userId, event)`.  `now` models the ambient `new Date()`
used for the `timeRange` defaults; formatted dates
(`Date.prototype.toLocaleString`, locale-dependent) are rendered as the
numeric timestamp. -/
def smartSchedule (flags : FetchFlags) (store : List CalendarEvent) (now : Int)
    (freshId : String) (input : SmartScheduleInput) : SmartScheduleResult :=
  match tryPreferredTimes flags store freshId input input.preferredTimes with
  | some r => r
  | none =>
    let searchStart := match input.timeRange with | some tr => tr.1 | none => now
    let searchEnd := match input.timeRange with | some tr => tr.2 | none => now + 7 * msPerDay
    let freeSlots := findFreeTime flags store input.duration searchStart searchEnd
    let slots1 := match input.workingHours with
      | some wh => freeSlots.filter fun slot =>
          decide (wh.1 ≤ utcHours slot) && decide (utcHours slot ≤ wh.2)
      | none => freeSlots
    let filteredSlots := match input.bufferTime with
      | some b => if b > 0 then filterSlotsWithBuffer flags store slots1 input.duration b else slots1
      | none => slots1
    match filteredSlots with
    | optimalTime :: _ =>
      { success := true,
        event := some (createEvent freshId input.title input.description optimalTime
          (optimalTime + input.duration * 60000) input.attendees input.location),
        alternativeTimes := some ((filteredSlots.drop 1).take 3),
        message := "Event scheduled successfully for " ++ toString optimalTime }
    | [] =>
      { success := false, event := none, alternativeTimes := some (freeSlots.take 5),
        message := "No suitable time slots found with the given constraints. Consider adjusting your preferences." }

/-- `updateEvent(userId, eventId, {start, end})` at the call shape used by
`rescheduleEvent`: the external patch rewrites the start/end of the events
with the given id; returns `false` (and leaves the store unchanged) when the
patch call fails. -/
def updateEvent (ok : Bool) (store : List CalendarEvent) (eventId : String)
    (newStart newEnd : Int) : Bool × List CalendarEvent :=
  if ok then
    (true, store.map fun e =>
      if e.id == eventId then { e with start := newStart, stop := newEnd } else e)
  else (false, store)

structure RescheduleResult where
  success : Bool
  event : Option CalendarEvent
  conflicts : Option (List CalendarEvent)
  message : String
deriving DecidableEq

/-- `rescheduleEvent(userId, eventId, newStartTime, checkConflicts = true)`.
Returns the result together with the store after the call (the source
mutates the external store through `updateEvent`).  The source computes the
conflict check only when the flag is set; the pure model computes it
unconditionally and consults it under the flag, which is the same value. -/
def rescheduleEvent (flags : FetchFlags) (store : List CalendarEvent)
    (eventId : String) (newStartTime : Int) (shouldCheckConflicts : Bool) :
    RescheduleResult × List CalendarEvent :=
  match (getEventsAll flags.eventsAllOk store).find? (fun e => e.id == eventId) with
  | none =>
    ({ success := false, event := none, conflicts := none, message := "Event not found" }, store)
  | some existingEvent =>
    let originalDuration := existingEvent.stop - existingEvent.start
    let newEndTime := newStartTime + originalDuration
    let conflictCheck := checkConflicts flags store newStartTime newEndTime
    if shouldCheckConflicts && conflictCheck.hasConflicts then
      ({ success := false, event := none, conflicts := some conflictCheck.conflicts,
         message := "Cannot reschedule due to " ++ toString conflictCheck.conflicts.length ++
           " conflict(s). Consider these alternative times." }, store)
    else
      match updateEvent flags.updateOk store eventId newStartTime newEndTime with
      | (true, store2) =>
        ({ success := true,
           event := (getEventsAll flags.eventsAllOk store2).find? (fun e => e.id == eventId),
           conflicts := none,
           message := "Event successfully rescheduled to " ++ toString newStartTime }, store2)
      | (false, store2) =>
        ({ success := false, event := none, conflicts := none,
           message := "Failed to update event" }, store2)

/-! ## Specification-side definitions

Independent restatements of the claims' language, to be related to the
embedded code by the theorems below. -/

/-- Candidate start times at exactly 30-minute steps from `start`, while
below `endT` (the claims' description of the free-time scan grid). -/
def stepCandidates (start endT : Int) : List Int :=
  if start < endT then start :: stepCandidates (start + 1800000) endT else []
termination_by (endT - start).toNat
decreasing_by
  omega

/-- The window `[t, t + duration]` overlaps no busy interval (strict
half-open overlap test). -/
def slotFree (busy : List (Int × Int)) (duration t : Int) : Bool :=
  busy.all fun b => !(decide (t < b.2) && decide (t + duration * 60000 > b.1))

/-! # Theorems

## Helper lemmas about the regex machinery -/

theorem hasEmailToken_cons_of (c : Char) (rest : List Char)
    (h : hasEmailToken rest = true) : hasEmailToken (c :: rest) = true := by
  rw [hasEmailToken, h, Bool.or_true]

theorem emailWindow_at (c : Char) (r2 : List Char) :
    emailWindow c ('@' :: r2) = (isLocalChar c && checkAfterAt r2) := rfl

theorem hasEmailToken_of_suffix {cs' cs : List Char} (hs : cs' <:+ cs)
    (h : hasEmailToken cs' = true) : hasEmailToken cs = true := by
  rcases hs with ⟨t, rfl⟩
  induction t with
  | nil => exact h
  | cons c t ih => exact hasEmailToken_cons_of c _ ih

theorem hasEmailToken_of_afterLocalRun :
    ∀ (r : List Char) (c : Char), isLocalChar c = true → afterLocalRun r = true →
      hasEmailToken (c :: r) = true := by
  intro r
  induction r with
  | nil => intro c _ h; simp [afterLocalRun] at h
  | cons d ds ih =>
    intro c hc h
    rw [afterLocalRun] at h
    by_cases hd : d = '@'
    · subst hd
      rw [if_pos rfl] at h
      rw [hasEmailToken, emailWindow_at, hc, h, Bool.and_self, Bool.true_or]
    · rw [if_neg hd, Bool.and_eq_true] at h
      exact hasEmailToken_cons_of c _ (ih d h.1 h.2)

theorem hasEmailToken_of_emailAt {cs : List Char} (h : emailAt cs = true) :
    hasEmailToken cs = true := by
  cases cs with
  | nil => simp [emailAt] at h
  | cons c r =>
    rw [emailAt, Bool.and_eq_true] at h
    exact hasEmailToken_of_afterLocalRun r c h.1 h.2

theorem litC_suffix {p : List Char} {k : Cont} {cs : List Char}
    (h : litC p k cs = true) : ∃ cs', cs' <:+ cs ∧ k cs' = true := by
  rw [litC, Bool.and_eq_true] at h
  exact ⟨cs.drop p.length, List.drop_suffix _ _, h.2⟩

theorem altC_suffix {ps : List (List Char)} {k : Cont} {cs : List Char}
    (h : altC ps k cs = true) : ∃ cs', cs' <:+ cs ∧ k cs' = true := by
  rw [altC, List.any_eq_true] at h
  rcases h with ⟨p, _, hp⟩
  exact litC_suffix hp

theorem gapC_suffix :
    ∀ (n : Nat) {k : Cont} {cs : List Char}, gapC n k cs = true →
      ∃ cs', cs' <:+ cs ∧ k cs' = true := by
  intro n
  induction n with
  | zero =>
    intro k cs h
    simp only [gapC, Bool.or_false] at h
    exact ⟨cs, List.suffix_refl _, h⟩
  | succ n ih =>
    intro k cs h
    simp only [gapC, Bool.or_eq_true] at h
    rcases h with h | h
    · exact ⟨cs, List.suffix_refl _, h⟩
    · cases cs with
      | nil => simp at h
      | cons c rest =>
        rw [Bool.and_eq_true] at h
        rcases ih h.2 with ⟨cs', hsuf, hk⟩
        exact ⟨cs', hsuf.trans (List.suffix_cons c rest), hk⟩

theorem wsStarC_suffix :
    ∀ (cs : List Char) {k : Cont}, wsStarC k cs = true →
      ∃ cs', cs' <:+ cs ∧ k cs' = true := by
  intro cs
  induction cs with
  | nil => intro k h; rw [wsStarC] at h; exact ⟨[], List.suffix_refl _, h⟩
  | cons c rest ih =>
    intro k h
    rw [wsStarC, Bool.or_eq_true] at h
    rcases h with h | h
    · exact ⟨c :: rest, List.suffix_refl _, h⟩
    · rw [Bool.and_eq_true] at h
      rcases ih h.2 with ⟨cs', hsuf, hk⟩
      exact ⟨cs', hsuf.trans (List.suffix_cons c rest), hk⟩

theorem wsPlusC_suffix {k : Cont} {cs : List Char} (h : wsPlusC k cs = true) :
    ∃ cs', cs' <:+ cs ∧ k cs' = true := by
  cases cs with
  | nil => simp [wsPlusC] at h
  | cons c rest =>
    rw [wsPlusC, Bool.and_eq_true] at h
    rcases wsStarC_suffix rest h.2 with ⟨cs', hsuf, hk⟩
    exact ⟨cs', hsuf.trans (List.suffix_cons c rest), hk⟩

theorem existsMatch_suffix :
    ∀ (cs : List Char) {p : List Char → Bool}, existsMatch p cs = true →
      ∃ cs', cs' <:+ cs ∧ p cs' = true := by
  intro cs
  induction cs with
  | nil => intro p h; rw [existsMatch] at h; exact ⟨[], List.suffix_refl _, h⟩
  | cons c rest ih =>
    intro p h
    rw [existsMatch, Bool.or_eq_true] at h
    rcases h with h | h
    · exact ⟨c :: rest, List.suffix_refl _, h⟩
    · rcases ih h with ⟨cs', hsuf, hk⟩
      exact ⟨cs', hsuf.trans (List.suffix_cons c rest), hk⟩

/-- The stricter first email pattern only matches when the catch-all
email-token pattern does: the latter is its tail. -/
theorem hasEmailToken_of_emailP1 {cs : List Char} (h : emailP1 cs = true) :
    hasEmailToken cs = true := by
  rw [emailP1] at h
  rcases existsMatch_suffix cs h with ⟨c1, hs1, h1⟩
  rcases altC_suffix h1 with ⟨c2, hs2, h2⟩
  rcases gapC_suffix 30 h2 with ⟨c3, hs3, h3⟩
  rcases altC_suffix h3 with ⟨c4, hs4, h4⟩
  rcases wsPlusC_suffix h4 with ⟨c5, hs5, h5⟩
  exact hasEmailToken_of_suffix
    ((((hs5.trans hs4).trans hs3).trans hs2).trans hs1)
    (hasEmailToken_of_emailAt h5)

/-- The classifier returns `send_email` exactly when the email block fires. -/
theorem intent_send_email_iff (message : String) :
    (parseIntentLightweight message).intent = Intent.send_email ↔
      emailIntentMatch (lowerChars message.data)
        (trimChars (lowerChars message.data)) = true := by
  rw [parseIntentLightweight]
  by_cases hg : emailIntentMatch (lowerChars message.data)
      (trimChars (lowerChars message.data)) = true
  · simp [hg]
  · simp only [Bool.not_eq_true] at hg
    simp only [hg, Bool.false_eq_true, if_false]
    constructor
    · intro h
      exfalso
      repeat first
        | (exact absurd h (by decide))
        | (split at h)
    · intro h
      simp at h

/-! ## C1 — the email intent gate -/

/-- C1: a message containing an email-address-shaped token but none of the
substrings `send` / `mail` / `email` is never classified `send_email`
(the address alone is not sufficient), and conversely a `send_email`
classification requires both an address-shaped token and one of those
substrings somewhere in the message. -/
theorem claim1_email_gate (message : String) :
    ((hasSub (trimChars (lowerChars message.data)) "send".data = false ∧
      hasSub (trimChars (lowerChars message.data)) "mail".data = false ∧
      hasSub (trimChars (lowerChars message.data)) "email".data = false) →
      (parseIntentLightweight message).intent ≠ Intent.send_email) ∧
    ((parseIntentLightweight message).intent = Intent.send_email →
      hasEmailToken (lowerChars message.data) = true ∧
      (hasSub (trimChars (lowerChars message.data)) "send".data = true ∨
       hasSub (trimChars (lowerChars message.data)) "mail".data = true ∨
       hasSub (trimChars (lowerChars message.data)) "email".data = true)) := by
  constructor
  · rintro ⟨h1, h2, h3⟩ hcontra
    rw [intent_send_email_iff, emailIntentMatch, h1, h2, h3] at hcontra
    simp at hcontra
  · intro h
    rw [intent_send_email_iff, emailIntentMatch, Bool.and_eq_true,
      Bool.or_eq_true, Bool.or_eq_true, Bool.or_eq_true] at h
    refine ⟨?_, by rcases h.2 with (h2 | h2) | h2 <;> tauto⟩
    rcases h.1 with h1 | h1
    · exact hasEmailToken_of_emailP1 h1
    · exact h1

/-- C1 witness: `"see a@b.co"` contains an address-shaped token and none of
the three verbs, and indeed falls through to `general_chat`. -/
theorem claim1_email_gate_witness :
    (hasSub (trimChars (lowerChars "see a@b.co".data)) "send".data = false ∧
     hasSub (trimChars (lowerChars "see a@b.co".data)) "mail".data = false ∧
     hasSub (trimChars (lowerChars "see a@b.co".data)) "email".data = false) ∧
    hasEmailToken (lowerChars "see a@b.co".data) = true ∧
    (parseIntentLightweight "see a@b.co").intent ≠ Intent.send_email ∧
    (parseIntentLightweight "see a@b.co").intent = Intent.general_chat := by
  refine ⟨⟨by decide, by decide, by decide⟩, by decide, ?_, by decide⟩
  exact (claim1_email_gate "see a@b.co").1 ⟨by decide, by decide, by decide⟩

/-! ## C2 — priority order of the intent families -/

/-- C2 counterexample: `"email a@b.co schedule meeting tomorrow"` matches
both a create_event calendar pattern and a check_schedule pattern, yet is
classified `send_email`, not `create_event` — the claim's universal
statement ignores the higher-priority email family. -/
theorem claim2_priority_counterexample :
    calendarMatch (lowerChars "email a@b.co schedule meeting tomorrow".data) = true ∧
    scheduleMatch (lowerChars "email a@b.co schedule meeting tomorrow".data) = true ∧
    (parseIntentLightweight "email a@b.co schedule meeting tomorrow").intent =
      Intent.send_email ∧
    Intent.send_email ≠ Intent.create_event := by
  exact ⟨by decide, by decide, by decide, by decide⟩

/-- C2 amended: the families are tried in a fixed order with the first match
winning, and calendar-create is tried before check_schedule; a message
matching both a create_event pattern and a check_schedule pattern is
classified `create_event` (confidence 0.85) provided no higher-priority
family (email, reminder) matches it. -/
theorem claim2_priority_amended (message : String)
    (hemail : emailIntentMatch (lowerChars message.data)
      (trimChars (lowerChars message.data)) = false)
    (hrem : reminderMatch (lowerChars message.data) = false)
    (hcal : calendarMatch (lowerChars message.data) = true)
    (_hsched : scheduleMatch (lowerChars message.data) = true) :
    parseIntentLightweight message =
      ⟨Intent.create_event, 0.85, false⟩ := by
  rw [parseIntentLightweight]
  simp only [hemail, hrem, hcal, Bool.false_eq_true, if_false, if_true]

/-- C2 witness: `"schedule meeting tomorrow at 5pm"` matches both families
and no higher-priority one, and is classified `create_event` at 0.85. -/
theorem claim2_priority_amended_witness :
    parseIntentLightweight "schedule meeting tomorrow at 5pm" =
      ⟨Intent.create_event, 0.85, false⟩ :=
  claim2_priority_amended "schedule meeting tomorrow at 5pm"
    (by decide) (by decide) (by decide) (by decide)

/-! ## Scheduling-engine lemmas -/

/-- Pre-fetching over the buffered window loses no true conflict: filtering
the buffered fetch by the strict overlap test equals filtering the whole
store by it. -/
theorem conflicts_filter_eq (store : List CalendarEvent) (s e : Int) :
    (getEvents true store (s - 30 * 60000) (e + 30 * 60000)).filter
        (fun ev => decide (s < ev.stop) && decide (e > ev.start)) =
      store.filter (fun ev => decide (s < ev.stop) && decide (e > ev.start)) := by
  simp only [getEvents, if_true]
  rw [List.filter_filter]
  refine List.filter_congr fun x _ => ?_
  cases hov : (decide (s < x.stop) && decide (e > x.start)) with
  | false => simp [hov]
  | true =>
    rw [Bool.and_eq_true, decide_eq_true_iff, decide_eq_true_iff] at hov
    simp only [hov, Bool.and_true, Bool.true_and, Bool.and_eq_true, decide_eq_true_iff]
    constructor <;> omega

/-- The scan loop computes exactly the 30-minute-step candidates that pass
the free-slot test. -/
theorem scanSlots_eq_filter (busy : List (Int × Int)) (d : Int) :
    ∀ s e : Int, scanSlots busy d s e = (stepCandidates s e).filter (slotFree busy d) := by
  have hfree : ∀ s : Int,
      (!(busy.any fun b => decide (s < b.2) && decide (s + d * 60000 > b.1))) =
        slotFree busy d s := by
    intro s
    rw [slotFree]
    induction busy with
    | nil => rfl
    | cons b bs ih => simp only [List.any_cons, List.all_cons, Bool.not_or, ih]
  intro s e
  generalize hn : (e - s).toNat = n
  induction n using Nat.strong_induction_on generalizing s with
  | _ n ih =>
    rw [scanSlots, stepCandidates]
    split
    case isTrue h =>
      have ihe := ih (e - (s + 1800000)).toNat (by omega) (s + 1800000) rfl
      simp only [ihe, List.filter_cons, hfree]
      cases hf : slotFree busy d s <;> simp [hf]
    case isFalse h => rfl

/-- The candidate grid: membership characterisation. -/
theorem stepCandidates_mem :
    ∀ s e t : Int, t ∈ stepCandidates s e ↔ ∃ k : Nat, t = s + k * 1800000 ∧ t < e := by
  intro s e
  generalize hn : (e - s).toNat = n
  induction n using Nat.strong_induction_on generalizing s with
  | _ n ih =>
    intro t
    rw [stepCandidates]
    split
    case isTrue h =>
      rw [List.mem_cons, ih (e - (s + 1800000)).toNat (by omega) (s + 1800000) rfl t]
      constructor
      · rintro (rfl | ⟨k, rfl, hk⟩)
        · exact ⟨0, by omega, h⟩
        · exact ⟨k + 1, by push_cast; ring, hk⟩
      · rintro ⟨k, rfl, hk⟩
        cases k with
        | zero => left; omega
        | succ k => right; exact ⟨k, by push_cast; ring, hk⟩
    case isFalse h =>
      simp only [List.not_mem_nil, false_iff, not_exists]
      rintro k ⟨rfl, hk⟩
      have : (0 : Int) ≤ (k : Int) * 1800000 := by positivity
      omega

/-- The candidate grid is strictly increasing. -/
theorem stepCandidates_sorted :
    ∀ s e : Int, List.Sorted (· < ·) (stepCandidates s e) := by
  intro s e
  generalize hn : (e - s).toNat = n
  induction n using Nat.strong_induction_on generalizing s with
  | _ n ih =>
    rw [stepCandidates]
    split
    case isTrue h =>
      rw [List.sorted_cons]
      refine ⟨fun b hb => ?_, ih (e - (s + 1800000)).toNat (by omega) (s + 1800000) rfl⟩
      rcases (stepCandidates_mem (s + 1800000) e b).mp hb with ⟨k, rfl, _⟩
      have : (0 : Int) ≤ (k : Int) * 1800000 := by positivity
      omega
    case isFalse h => exact List.sorted_nil

/-! ## C3 — conflict detection -/

/-- C3: with the fetch succeeding, `checkConflicts` reports a conflict
exactly when some stored event overlaps the query window under the strict
test `start < existingEnd && end > existingStart`; the suggestions are at
most 5, empty when there is no conflict, and obtained from `findFreeTime`
over the following 7 days when there is one. -/
theorem claim3_conflict_detection (flags : FetchFlags) (store : List CalendarEvent)
    (s e : Int) (hev : flags.eventsRangeOk = true) :
    ((checkConflicts flags store s e).hasConflicts = true ↔
      ∃ ev ∈ store, s < ev.stop ∧ e > ev.start) ∧
    (checkConflicts flags store s e).suggestions.length ≤ 5 ∧
    ((checkConflicts flags store s e).hasConflicts = false →
      (checkConflicts flags store s e).suggestions = []) ∧
    ((checkConflicts flags store s e).hasConflicts = true →
      (checkConflicts flags store s e).suggestions =
        (findFreeTime flags store (ceilDiv (e - s) 60000) s (s + 7 * msPerDay)).take 5) := by
  have hmem : ∀ ev : CalendarEvent,
      (ev ∈ store.filter (fun ev => decide (s < ev.stop) && decide (e > ev.start))) ↔
        (ev ∈ store ∧ s < ev.stop ∧ e > ev.start) := by
    intro ev
    rw [List.mem_filter, Bool.and_eq_true, decide_eq_true_iff, decide_eq_true_iff]
  simp only [checkConflicts, hev, conflicts_filter_eq]
  split
  case isTrue h =>
    refine ⟨?_, ?_, ?_, ?_⟩
    · simp only [true_iff]
      rcases List.length_pos_iff_exists_mem.mp h with ⟨ev, hm⟩
      rcases (hmem ev).mp hm with ⟨h1, h2, h3⟩
      exact ⟨ev, h1, h2, h3⟩
    · exact List.length_take_le 5 _
    · intro hfalse; simp at hfalse
    · intro _; rfl
  case isFalse h =>
    refine ⟨?_, by simp, fun _ => rfl, ?_⟩
    · simp only [Bool.false_eq_true, false_iff, not_exists]
      rintro ev ⟨hm, h2, h3⟩
      refine h (List.length_pos_iff_exists_mem.mpr ⟨ev, (hmem ev).mpr ⟨hm, h2, h3⟩⟩)
    · intro hfalse
      simp at hfalse

/-- C3 witness: one stored event `[10:00,11:00)` (as ms of day); the query
`[10:30,11:30)` conflicts and the query `[11:00,12:00)` does not. -/
theorem claim3_conflict_detection_witness :
    ((⟨true, true, true, true⟩ : FetchFlags).eventsRangeOk = true ∧
      ((checkConflicts ⟨true, true, true, true⟩
          [⟨"e1", "standup", "", 36000000, 39600000, [], none⟩]
          37800000 41400000).hasConflicts = true ↔
        ∃ ev ∈ [(⟨"e1", "standup", "", 36000000, 39600000, [], none⟩ : CalendarEvent)],
          (37800000 : Int) < ev.stop ∧ (41400000 : Int) > ev.start)) ∧
    (checkConflicts ⟨true, true, true, true⟩
      [⟨"e1", "standup", "", 36000000, 39600000, [], none⟩]
      37800000 41400000).hasConflicts = true ∧
    (checkConflicts ⟨true, true, true, true⟩
      [⟨"e1", "standup", "", 36000000, 39600000, [], none⟩]
      39600000 43200000).hasConflicts = false := by
  refine ⟨⟨rfl, (claim3_conflict_detection ⟨true, true, true, true⟩
    [⟨"e1", "standup", "", 36000000, 39600000, [], none⟩] 37800000 41400000 rfl).1⟩,
    by decide, by decide⟩

/-! ## C9 — the free-time scan -/

/-- C9: with the free/busy query succeeding, `findFreeTime` returns exactly
the first 10 candidates of the 30-minute grid over `[searchStart, searchEnd)`
that pass the free-slot test, in chronological order; the grid is
`searchStart + k·30min` for every `k` with that instant below `searchEnd`. -/
theorem claim9_free_time_scan (flags : FetchFlags) (store : List CalendarEvent)
    (d s e : Int) (hfb : flags.freebusyOk = true) :
    findFreeTime flags store d s e =
      ((stepCandidates s e).filter (slotFree (busyQuery store s e) d)).take 10 ∧
    (∀ t : Int, t ∈ stepCandidates s e ↔ ∃ k : Nat, t = s + k * 1800000 ∧ t < e) ∧
    List.Sorted (· < ·) (findFreeTime flags store d s e) ∧
    (findFreeTime flags store d s e).length ≤ 10 := by
  have heq : findFreeTime flags store d s e =
      ((stepCandidates s e).filter (slotFree (busyQuery store s e) d)).take 10 := by
    simp only [findFreeTime, hfb, if_true, scanSlots_eq_filter]
  refine ⟨heq, stepCandidates_mem s e, ?_, ?_⟩
  · rw [heq]
    exact ((stepCandidates_sorted s e).filter _).sublist (List.take_sublist _ _)
  · rw [heq]
    exact List.length_take_le 10 _

/-- C9 witness: with no events, duration 30 minutes, search window
`[9:00, 10:00)` (as ms of day), the returned slots are exactly 9:00 and
9:30. -/
theorem claim9_free_time_scan_witness :
    (⟨true, true, true, true⟩ : FetchFlags).freebusyOk = true ∧
    findFreeTime ⟨true, true, true, true⟩ [] 30 32400000 36000000 =
      ((stepCandidates 32400000 36000000).filter
        (slotFree (busyQuery [] 32400000 36000000) 30)).take 10 ∧
    findFreeTime ⟨true, true, true, true⟩ [] 30 32400000 36000000 =
      [32400000, 34200000] := by
  refine ⟨rfl, (claim9_free_time_scan ⟨true, true, true, true⟩ [] 30 32400000 36000000 rfl).1,
    ?_⟩
  have h3 : scanSlots [] 30 36000000 36000000 = [] := by rw [scanSlots]; norm_num
  have h2 : scanSlots [] 30 34200000 36000000 = [34200000] := by
    rw [scanSlots]; norm_num [h3]
  have h1 : scanSlots [] 30 32400000 36000000 = [32400000, 34200000] := by
    rw [scanSlots]; norm_num [h2]
  have hb : busyQuery ([] : List CalendarEvent) 32400000 36000000 = [] := rfl
  simp [findFreeTime, hb, h1]

/-! ## Time-resolver lemmas -/

theorem tryRelativeUnit_none {u : List Char} {mult : Int} {norm : List Char} {now : Int}
    (h : hasSub norm u = false) : tryRelativeUnit u mult norm now = none := by
  simp [tryRelativeUnit, h]

theorem tryRelativeUnit_some {u : List Char} {mult : Int} {norm : List Char} {now : Int}
    {v : Nat} (h1 : hasSub norm u = true) (h2 : extractNumber norm = some v)
    (h3 : v ≠ 0) : tryRelativeUnit u mult norm now = some (now + (v : Int) * mult) := by
  simp [tryRelativeUnit, h1, h2, h3]

theorem tryTomorrow_none {norm : List Char} {now : Int}
    (h : hasSub norm "tomorrow".data = false) : tryTomorrow norm now = none := by
  simp [tryTomorrow, h]

theorem tryNextWeek_none {norm : List Char} {now : Int}
    (h : hasSub norm "next week".data = false) : tryNextWeek norm now = none := by
  simp [tryNextWeek, h]

theorem startsWithChars_append (p b : List Char) : startsWithChars p (p ++ b) = true := by
  induction p with
  | nil => rfl
  | cons c ps ih => simp [startsWithChars, ih]

theorem hasSub_of_starts {cs p : List Char} (h : startsWithChars p cs = true) :
    hasSub cs p = true := by
  cases cs with
  | nil => rw [hasSub]; exact h
  | cons c rest => rw [hasSub, h, Bool.true_or]

theorem hasSub_cons_of {cs p : List Char} (c : Char) (h : hasSub cs p = true) :
    hasSub (c :: cs) p = true := by
  rw [hasSub, h, Bool.or_true]

theorem hasSub_append_of (a : List Char) {cs p : List Char} (h : hasSub cs p = true) :
    hasSub (a ++ cs) p = true := by
  induction a with
  | nil => exact h
  | cons c a ih => exact hasSub_cons_of c ih

/-- A substring occurrence in the middle witnesses `hasSub`. -/
theorem hasSub_of_parts (a p b : List Char) : hasSub (a ++ (p ++ b)) p = true :=
  hasSub_append_of a (hasSub_of_starts (startsWithChars_append p b))

/-- A successful substring test for a nonempty pattern puts the pattern's
head character in the text. -/
theorem mem_of_hasSub {cs : List Char} {q : Char} {p' : List Char}
    (h : hasSub cs (q :: p') = true) : q ∈ cs := by
  induction cs with
  | nil => rw [hasSub] at h; simp [startsWithChars] at h
  | cons c rest ih =>
    rw [hasSub, Bool.or_eq_true] at h
    rcases h with h | h
    · rw [startsWithChars, Bool.and_eq_true] at h
      rcases h with ⟨h, _⟩
      simp only [decide_eq_true_iff] at h
      exact h ▸ List.mem_cons_self c rest
    · exact List.mem_cons_of_mem c (ih h)

theorem lcChar_digit {c : Char} (h : isDigitChar c = true) : lcChar c = c := by
  simp only [isDigitChar, Bool.or_eq_true, decide_eq_true_iff] at h
  rcases h with ((((((((h | h) | h) | h) | h) | h) | h) | h) | h) | h <;> subst h <;> decide

theorem digit_not_ws {c : Char} (h : isDigitChar c = true) : isWsChar c = false := by
  simp only [isDigitChar, Bool.or_eq_true, decide_eq_true_iff] at h
  rcases h with ((((((((h | h) | h) | h) | h) | h) | h) | h) | h) | h <;> subst h <;> decide

theorem lowerChars_digits {d : List Char} (hd : ∀ c ∈ d, isDigitChar c = true) :
    lowerChars d = d := by
  rw [lowerChars]
  rw [List.map_congr_left fun c hc => lcChar_digit (hd c hc)]
  exact List.map_id d

/-- Trimming is the identity when the first and last characters are not
whitespace. -/
theorem trimChars_noop (c0 : Char) (mid : List Char) (z : Char)
    (h0 : isWsChar c0 = false) (hz : isWsChar z = false) :
    trimChars (c0 :: (mid ++ [z])) = c0 :: (mid ++ [z]) := by
  rw [trimChars, List.dropWhile_cons, h0]
  simp only [Bool.false_eq_true, if_false]
  rw [show c0 :: (mid ++ [z]) = (c0 :: mid) ++ [z] from rfl, List.reverse_append]
  simp only [List.reverse_cons, List.reverse_nil, List.nil_append, List.singleton_append]
  rw [List.dropWhile_cons, hz]
  simp only [Bool.false_eq_true, if_false]
  simp

theorem takeWhile_digits_append {d rest : List Char}
    (hd : ∀ c ∈ d, isDigitChar c = true)
    (hr : rest.head?.all fun c => !isDigitChar c) :
    (d ++ rest).takeWhile isDigitChar = d ∧ (d ++ rest).dropWhile isDigitChar = rest := by
  induction d with
  | nil =>
    cases rest with
    | nil => simp
    | cons r rs =>
      simp only [Option.all_some, List.head?_cons, Bool.not_eq_true'] at hr
      simp [List.takeWhile_cons, List.dropWhile_cons, hr]
  | cons c d ih =>
    have hc := hd c (List.mem_cons_self c d)
    have ⟨iht, ihd⟩ := ih fun x hx => hd x (List.mem_cons_of_mem c hx)
    constructor
    · rw [List.cons_append, List.takeWhile_cons, hc]
      simp [iht]
    · rw [List.cons_append, List.dropWhile_cons, hc]
      simp [ihd]

/-- Trimming is the identity when neither end is whitespace (`head?`/`getLast?`
formulation). -/
theorem trimChars_noop_of (cs : List Char)
    (h0 : cs.head?.all (fun c => !isWsChar c) = true)
    (hz : cs.getLast?.all (fun c => !isWsChar c) = true) :
    trimChars cs = cs := by
  rw [trimChars]
  have h1 : cs.dropWhile isWsChar = cs := by
    cases cs with
    | nil => rfl
    | cons c rest =>
      simp only [List.head?_cons, Option.all_some, Bool.not_eq_true'] at h0
      simp [List.dropWhile_cons, h0]
  rw [h1]
  have h2 : cs.reverse.dropWhile isWsChar = cs.reverse := by
    cases hrev : cs.reverse with
    | nil => rfl
    | cons r rs =>
      have hlast : cs.getLast? = some r := by
        rw [← List.head?_reverse, hrev, List.head?_cons]
      rw [hlast, Option.all_some, Bool.not_eq_true'] at hz
      simp [List.dropWhile_cons, hz]
  rw [h2, List.reverse_reverse]

theorem String_mk_cons_ne_empty (c : Char) (cs : List Char) :
    String.mk (c :: cs) ≠ "" := by
  intro h
  have h2 := congrArg String.data h
  simp at h2

/-- A nonempty pattern whose head character is absent cannot be a substring. -/
theorem hasSub_eq_false_of_not_mem {cs : List Char} {q : Char} {p' : List Char}
    (h : q ∉ cs) : hasSub cs (q :: p') = false := by
  cases hc : hasSub cs (q :: p') with
  | false => rfl
  | true => exact absurd (mem_of_hasSub hc) h

theorem extractNumber_skip {c : Char} {cs : List Char} (h : isDigitChar c = false) :
    extractNumber (c :: cs) = extractNumber cs := by
  rw [extractNumber, h]
  simp

/-- `extractNumber` at the start of a digit run followed by a unit word. -/
theorem extractNumber_digits {d rest : List Char} (hne : d ≠ [])
    (hd : ∀ c ∈ d, isDigitChar c = true)
    (hr : rest.head?.all fun c => !isDigitChar c)
    (hu : unitFollows rest = true) :
    extractNumber (d ++ rest) = some (digitsVal d) := by
  have ⟨ht, hdw⟩ := takeWhile_digits_append hd hr
  cases d with
  | nil => exact absurd rfl hne
  | cons c d' =>
    have hc := hd c (List.mem_cons_self c d')
    rw [List.cons_append, extractNumber, hc]
    simp only [if_true]
    rw [← List.cons_append, hdw, hu, ht]
    simp

theorem some_ite {α : Type} {c : Prop} [Decidable c] (a b : α) :
    (if c then some a else some b) = some (if c then a else b) := by
  split <;> rfl

theorem getLast?_append_right (a b : List Char) (hb : b ≠ []) :
    (a ++ b).getLast? = b.getLast? := by
  rw [← List.head?_reverse, ← List.head?_reverse, List.reverse_append]
  cases hrb : b.reverse with
  | nil => exact absurd (List.reverse_eq_nil_iff.mp hrb) hb
  | cons x xs => rfl

/-- Normalization is the identity on `"in <digits> <unit>"`-shaped inputs. -/
theorem normChars_in_form (d T : List Char) (hd : ∀ c ∈ d, isDigitChar c = true)
    (hT : T.map lcChar = T)
    (hTlast : (' ' :: T).getLast?.all (fun c => !isWsChar c) = true) :
    trimChars (lowerChars ('i' :: 'n' :: ' ' :: (d ++ (' ' :: T)))) =
      'i' :: 'n' :: ' ' :: (d ++ (' ' :: T)) := by
  have hlow : lowerChars ('i' :: 'n' :: ' ' :: (d ++ (' ' :: T))) =
      'i' :: 'n' :: ' ' :: (d ++ (' ' :: T)) := by
    simp only [lowerChars, List.map_cons, List.map_append]
    rw [show List.map lcChar d = d from
      by rw [List.map_congr_left fun c hc => lcChar_digit (hd c hc)]; exact List.map_id d]
    rw [hT]
    norm_num [show lcChar 'i' = 'i' from by decide, show lcChar 'n' = 'n' from by decide,
      show lcChar ' ' = ' ' from by decide]
  rw [hlow]
  refine trimChars_noop_of _ rfl ?_
  rw [show ('i' :: 'n' :: ' ' :: (d ++ (' ' :: T)) : List Char) =
    ('i' :: 'n' :: ' ' :: d) ++ (' ' :: T) from by simp]
  rw [getLast?_append_right _ _ (by simp)]
  exact hTlast

/-- Normalization is the identity on `"<digits> <unit words>"`-shaped inputs. -/
theorem normChars_suffix_form (d T : List Char) (hne : d ≠ [])
    (hd : ∀ c ∈ d, isDigitChar c = true) (hT : T.map lcChar = T)
    (hTlast : (' ' :: T).getLast?.all (fun c => !isWsChar c) = true) :
    trimChars (lowerChars (d ++ (' ' :: T))) = d ++ (' ' :: T) := by
  have hlow : lowerChars (d ++ (' ' :: T)) = d ++ (' ' :: T) := by
    simp only [lowerChars, List.map_cons, List.map_append]
    rw [show List.map lcChar d = d from
      by rw [List.map_congr_left fun c hc => lcChar_digit (hd c hc)]; exact List.map_id d]
    rw [hT]
    norm_num [show lcChar ' ' = ' ' from by decide]
  rw [hlow]
  refine trimChars_noop_of _ ?_ ?_
  · cases d with
    | nil => exact absurd rfl hne
    | cons c d' =>
      rw [List.cons_append, List.head?_cons, Option.all_some]
      rw [digit_not_ws (hd c (List.mem_cons_self c d'))]
      rfl
  · rw [getLast?_append_right _ _ (by simp)]
    exact hTlast

/-! ## C4 — bare clock time with no day word -/

/-- C4: on an input whose normalization contains none of the unit/day
keywords but does contain a clock time `(h0, m, ap)`: an explicit AM/PM
marker is applied directly; with no marker and `h0 < 12`, the hour is
shifted to PM exactly when the implied AM time (in minutes of the IST day)
is not later than the current IST wall-clock minutes of the reference
`now`; and the resolved same-day instant is rolled forward by exactly one
day — and no further — exactly when it is not after `now`. -/
theorem claim4_bare_clock_time (dp : String → Option Int) (s : String) (now : Int)
    (h0 m : Nat) (ap : Option Bool) (hne : s ≠ "")
    (h1 : hasSub (trimChars (lowerChars s.data)) "minute".data = false)
    (h2 : hasSub (trimChars (lowerChars s.data)) "hour".data = false)
    (h3 : hasSub (trimChars (lowerChars s.data)) "day".data = false)
    (h4 : hasSub (trimChars (lowerChars s.data)) "tomorrow".data = false)
    (h5 : hasSub (trimChars (lowerChars s.data)) "next week".data = false)
    (h6 : matchClock (trimChars (lowerChars s.data)) = some (h0, m, ap)) :
    parseNaturalTime dp s now =
      some (
        let hA : Nat :=
          if ap = none ∧ h0 < 12 then
            if ((h0 * 60 + m : Nat) : Int) ≤
                utcHours (now + istOffsetMs) * 60 + utcMinutes (now + istOffsetMs) then
              h0 + 12
            else h0
          else if ap = some true ∧ h0 ≠ 12 then h0 + 12
          else if ap = some false ∧ h0 = 12 then 0
          else h0
        let base := utcDayStart now + ((hA : Int) * 60 + (m : Int) - 330) * 60000
        if base ≤ now then base + msPerDay else base) := by
  have hb : utcDayStart now + (((if ap = none ∧ h0 < 12 then
        if ((h0 * 60 + m : Nat) : Int) ≤
            utcHours (now + istOffsetMs) * 60 + utcMinutes (now + istOffsetMs) then
          h0 + 12
        else h0
      else if ap = some true ∧ h0 ≠ 12 then h0 + 12
      else if ap = some false ∧ h0 = 12 then 0
      else h0 : Nat) : Int) - 5) * 3600000 + ((m : Int) - 30) * 60000 =
      utcDayStart now + (((if ap = none ∧ h0 < 12 then
        if ((h0 * 60 + m : Nat) : Int) ≤
            utcHours (now + istOffsetMs) * 60 + utcMinutes (now + istOffsetMs) then
          h0 + 12
        else h0
      else if ap = some true ∧ h0 ≠ 12 then h0 + 12
      else if ap = some false ∧ h0 = 12 then 0
      else h0 : Nat) : Int) * 60 + (m : Int) - 330) * 60000 := by
    ring
  have hbare : tryBareTime (trimChars (lowerChars s.data)) now =
      some (
        let hA : Nat :=
          if ap = none ∧ h0 < 12 then
            if ((h0 * 60 + m : Nat) : Int) ≤
                utcHours (now + istOffsetMs) * 60 + utcMinutes (now + istOffsetMs) then
              h0 + 12
            else h0
          else if ap = some true ∧ h0 ≠ 12 then h0 + 12
          else if ap = some false ∧ h0 = 12 then 0
          else h0
        let base := utcDayStart now + ((hA : Int) * 60 + (m : Int) - 330) * 60000
        if base ≤ now then base + msPerDay else base) := by
    simp only [tryBareTime, h6]
    rw [hb, some_ite]
  simp only [parseNaturalTime, hne, if_false,
    tryRelativeUnit_none h1, tryRelativeUnit_none h2, tryRelativeUnit_none h3,
    tryTomorrow_none h4, tryNextWeek_none h5, hbare, Option.orElse]

/-- C4 witness: `resolve("10:30")` with reference now 08:30 UTC (= 14:00
IST) yields the same UTC day's 17:00 UTC = 22:30 IST; with reference now
03:30 UTC (= 09:00 IST) it yields 05:00 UTC = 10:30 IST. -/
theorem claim4_bare_clock_time_witness :
    ("10:30" : String) ≠ "" ∧
    matchClock (trimChars (lowerChars "10:30".data)) = some (10, 30, none) ∧
    parseNaturalTime (fun _ => none) "10:30" 30600000 = some 61200000 ∧
    parseNaturalTime (fun _ => none) "10:30" 12600000 = some 18000000 := by
  refine ⟨by decide, by decide, ?_, ?_⟩
  · rw [claim4_bare_clock_time (fun _ => none) "10:30" 30600000 10 30 none
      (by decide) (by decide) (by decide) (by decide) (by decide) (by decide) (by decide)]
    decide
  · rw [claim4_bare_clock_time (fun _ => none) "10:30" 12600000 10 30 none
      (by decide) (by decide) (by decide) (by decide) (by decide) (by decide) (by decide)]
    decide

/-! ## C5 — relative units -/

/-- `parseNaturalTime` on a nonempty input, unfolded to its branch chain. -/
theorem parseNaturalTime_mk (dp : String → Option Int) (cs : List Char) (now : Int)
    (hne : String.mk cs ≠ "") :
    parseNaturalTime dp (String.mk cs) now =
      ((((((tryRelativeUnit "minute".data 60000 (trimChars (lowerChars cs)) now).orElse fun _ =>
        tryRelativeUnit "hour".data 3600000 (trimChars (lowerChars cs)) now).orElse fun _ =>
        tryRelativeUnit "day".data msPerDay (trimChars (lowerChars cs)) now).orElse fun _ =>
        tryTomorrow (trimChars (lowerChars cs)) now).orElse fun _ =>
        tryNextWeek (trimChars (lowerChars cs)) now).orElse fun _ =>
        tryBareTime (trimChars (lowerChars cs)) now).orElse fun _ =>
        dp (String.mk cs) := by
  rw [parseNaturalTime, if_neg hne]

/-- C5 counterexample: the abbreviated synonym phrasing is NOT equivalent —
`"30 mins from now"` does not contain the substring `minute`, falls through
to the bare-clock-time branch (hour 30!) and resolves to the next UTC day's
00:30, while `"in 30 minutes"` resolves to `now + 30min`. -/
theorem claim5_synonym_counterexample :
    parseNaturalTime (fun _ => none) "30 mins from now" 30600000 = some 88200000 ∧
    parseNaturalTime (fun _ => none) "in 30 minutes" 30600000 = some 32400000 ∧
    parseNaturalTime (fun _ => none) "30 mins from now" 30600000 ≠
      parseNaturalTime (fun _ => none) "in 30 minutes" 30600000 :=
  ⟨by decide, by decide, by decide⟩

/-- C5 amended: for every nonzero count written as a digit string `d` and
unit in {minute, hour, day}, the resolver maps `"in <d> <unit>s"` to
`referenceNow + d·unit`, and the suffix phrasing with the unit spelled out
(`"<d> minutes from now"`) yields the same instant as the `"in"` form; the
abbreviated `"mins"` suffix form is not recognized by the resolver (it is
normalized upstream by the classifier's time extraction). -/
theorem claim5_relative_units_amended (dp : String → Option Int) (now : Int)
    (d : List Char) (hne : d ≠ []) (hd : ∀ c ∈ d, isDigitChar c = true)
    (hv : digitsVal d ≠ 0) :
    parseNaturalTime dp (String.mk ('i' :: 'n' :: ' ' :: (d ++ (' ' :: "minutes".data)))) now
      = some (now + (digitsVal d : Int) * 60000) ∧
    parseNaturalTime dp (String.mk ('i' :: 'n' :: ' ' :: (d ++ (' ' :: "hours".data)))) now
      = some (now + (digitsVal d : Int) * 3600000) ∧
    parseNaturalTime dp (String.mk ('i' :: 'n' :: ' ' :: (d ++ (' ' :: "days".data)))) now
      = some (now + (digitsVal d : Int) * msPerDay) ∧
    parseNaturalTime dp (String.mk (d ++ (' ' :: "minutes from now".data))) now
      = some (now + (digitsVal d : Int) * 60000) := by
  have hskip3 : ∀ rest : List Char,
      extractNumber ('i' :: 'n' :: ' ' :: rest) = extractNumber rest := by
    intro rest
    rw [extractNumber_skip (show isDigitChar 'i' = false from by decide),
      extractNumber_skip (show isDigitChar 'n' = false from by decide),
      extractNumber_skip (show isDigitChar ' ' = false from by decide)]
  refine ⟨?_, ?_, ?_, ?_⟩
  · -- "in N minutes"
    have hnorm := normChars_in_form d "minutes".data hd (by decide) (by decide)
    have hsub : hasSub ('i' :: 'n' :: ' ' :: (d ++ (' ' :: "minutes".data)))
        "minute".data = true := by
      have b1 := hasSub_cons_of ' '
        (hasSub_of_starts (startsWithChars_append "minute".data ['s']))
      rw [show (' ' :: ("minute".data ++ ['s']) : List Char) = ' ' :: "minutes".data
        from by decide] at b1
      exact hasSub_cons_of 'i' (hasSub_cons_of 'n'
        (hasSub_cons_of ' ' (hasSub_append_of d b1)))
    have hex : extractNumber ('i' :: 'n' :: ' ' :: (d ++ (' ' :: "minutes".data))) =
        some (digitsVal d) := by
      rw [hskip3]
      exact extractNumber_digits hne hd (by decide) (by decide)
    rw [parseNaturalTime_mk dp _ now (String_mk_cons_ne_empty _ _), hnorm,
      tryRelativeUnit_some hsub hex hv]
    simp [Option.orElse]
  · -- "in N hours"
    have hnorm := normChars_in_form d "hours".data hd (by decide) (by decide)
    have hnm : ('m' : Char) ∉ ('i' :: 'n' :: ' ' :: (d ++ (' ' :: "hours".data)) : List Char) := by
      intro hmem
      simp only [List.mem_cons, List.mem_append] at hmem
      rcases hmem with h | h | h | h | h
      · exact absurd h (by decide)
      · exact absurd h (by decide)
      · exact absurd h (by decide)
      · exact absurd (hd _ h) (by decide)
      · exact absurd h (by decide)
    have hsubm : hasSub ('i' :: 'n' :: ' ' :: (d ++ (' ' :: "hours".data)))
        "minute".data = false := by
      rw [show ("minute".data : List Char) = 'm' :: "inute".data from by decide]
      exact hasSub_eq_false_of_not_mem hnm
    have hsub : hasSub ('i' :: 'n' :: ' ' :: (d ++ (' ' :: "hours".data)))
        "hour".data = true := by
      have b1 := hasSub_cons_of ' '
        (hasSub_of_starts (startsWithChars_append "hour".data ['s']))
      rw [show (' ' :: ("hour".data ++ ['s']) : List Char) = ' ' :: "hours".data
        from by decide] at b1
      exact hasSub_cons_of 'i' (hasSub_cons_of 'n'
        (hasSub_cons_of ' ' (hasSub_append_of d b1)))
    have hex : extractNumber ('i' :: 'n' :: ' ' :: (d ++ (' ' :: "hours".data))) =
        some (digitsVal d) := by
      rw [hskip3]
      exact extractNumber_digits hne hd (by decide) (by decide)
    rw [parseNaturalTime_mk dp _ now (String_mk_cons_ne_empty _ _), hnorm,
      tryRelativeUnit_none hsubm, tryRelativeUnit_some hsub hex hv]
    simp [Option.orElse]
  · -- "in N days"
    have hnorm := normChars_in_form d "days".data hd (by decide) (by decide)
    have hnm : ('m' : Char) ∉ ('i' :: 'n' :: ' ' :: (d ++ (' ' :: "days".data)) : List Char) := by
      intro hmem
      simp only [List.mem_cons, List.mem_append] at hmem
      rcases hmem with h | h | h | h | h
      · exact absurd h (by decide)
      · exact absurd h (by decide)
      · exact absurd h (by decide)
      · exact absurd (hd _ h) (by decide)
      · exact absurd h (by decide)
    have hnh : ('h' : Char) ∉ ('i' :: 'n' :: ' ' :: (d ++ (' ' :: "days".data)) : List Char) := by
      intro hmem
      simp only [List.mem_cons, List.mem_append] at hmem
      rcases hmem with h | h | h | h | h
      · exact absurd h (by decide)
      · exact absurd h (by decide)
      · exact absurd h (by decide)
      · exact absurd (hd _ h) (by decide)
      · exact absurd h (by decide)
    have hsubm : hasSub ('i' :: 'n' :: ' ' :: (d ++ (' ' :: "days".data)))
        "minute".data = false := by
      rw [show ("minute".data : List Char) = 'm' :: "inute".data from by decide]
      exact hasSub_eq_false_of_not_mem hnm
    have hsubh : hasSub ('i' :: 'n' :: ' ' :: (d ++ (' ' :: "days".data)))
        "hour".data = false := by
      rw [show ("hour".data : List Char) = 'h' :: "our".data from by decide]
      exact hasSub_eq_false_of_not_mem hnh
    have hsub : hasSub ('i' :: 'n' :: ' ' :: (d ++ (' ' :: "days".data)))
        "day".data = true := by
      have b1 := hasSub_cons_of ' '
        (hasSub_of_starts (startsWithChars_append "day".data ['s']))
      rw [show (' ' :: ("day".data ++ ['s']) : List Char) = ' ' :: "days".data
        from by decide] at b1
      exact hasSub_cons_of 'i' (hasSub_cons_of 'n'
        (hasSub_cons_of ' ' (hasSub_append_of d b1)))
    have hex : extractNumber ('i' :: 'n' :: ' ' :: (d ++ (' ' :: "days".data))) =
        some (digitsVal d) := by
      rw [hskip3]
      exact extractNumber_digits hne hd (by decide) (by decide)
    rw [parseNaturalTime_mk dp _ now (String_mk_cons_ne_empty _ _), hnorm,
      tryRelativeUnit_none hsubm, tryRelativeUnit_none hsubh,
      tryRelativeUnit_some hsub hex hv]
    simp [Option.orElse]
  · -- "N minutes from now"
    have hnorm := normChars_suffix_form d "minutes from now".data hne hd
      (by decide) (by decide)
    have hsub : hasSub (d ++ (' ' :: "minutes from now".data)) "minute".data = true := by
      have b1 := hasSub_cons_of ' '
        (hasSub_of_starts (startsWithChars_append "minute".data "s from now".data))
      rw [show (' ' :: ("minute".data ++ "s from now".data) : List Char) =
        ' ' :: "minutes from now".data from by decide] at b1
      exact hasSub_append_of d b1
    have hex : extractNumber (d ++ (' ' :: "minutes from now".data)) =
        some (digitsVal d) :=
      extractNumber_digits hne hd (by decide) (by decide)
    have hnemk : String.mk (d ++ (' ' :: "minutes from now".data)) ≠ "" := by
      cases d with
      | nil => exact absurd rfl hne
      | cons c d' => exact String_mk_cons_ne_empty _ _
    rw [parseNaturalTime_mk dp _ now hnemk, hnorm,
      tryRelativeUnit_some hsub hex hv]
    simp [Option.orElse]

/-- C5 witness: `resolve("in 20 minutes", 0) = 20 minutes`, through the
amended theorem at the digit string `"20"`. -/
theorem claim5_relative_units_amended_witness :
    parseNaturalTime (fun _ => none) "in 20 minutes" 0 = some 1200000 := by
  have h := (claim5_relative_units_amended (fun _ => none) 0 ['2', '0']
    (by decide) (by decide) (by decide)).1
  rw [show String.mk ('i' :: 'n' :: ' ' :: ((['2', '0'] : List Char) ++
    (' ' :: "minutes".data))) = "in 20 minutes" from by decide] at h
  rw [h]
  decide

/-! ## C6 — smart scheduling books the first free preferred time -/

/-- C6: when the head of `preferredTimes` is conflict-free for the requested
duration, `smartSchedule` books exactly that instant and returns success with
no `alternativeTimes` — the fallback search (and its workingHours/bufferTime
filtering) contributes nothing to the result. -/
theorem claim6_preferred_time_first (flags : FetchFlags) (store : List CalendarEvent)
    (now : Int) (freshId : String) (input : SmartScheduleInput) (t : Int)
    (rest : List Int) (hp : input.preferredTimes = t :: rest)
    (hc : (checkConflicts flags store t (t + input.duration * 60000)).hasConflicts = false) :
    smartSchedule flags store now freshId input =
      { success := true,
        event := some (createEvent freshId input.title input.description t
          (t + input.duration * 60000) input.attendees input.location),
        alternativeTimes := none,
        message := "Event scheduled successfully for " ++ toString t } := by
  simp only [smartSchedule, hp, tryPreferredTimes, hc, Bool.false_eq_true, if_false]

/-- C6 witness: one stored event `[10:00,11:00)`; the preferred time
00:00 next day is conflict-free and is booked exactly, with no
alternatives. -/
theorem claim6_preferred_time_first_witness :
    ({ title := "t", description := "d", duration := 30, attendees := [],
       location := none, preferredTimes := [86400000], timeRange := none,
       workingHours := none, bufferTime := none } : SmartScheduleInput).preferredTimes =
      [(86400000 : Int)] ∧
    (checkConflicts ⟨true, true, true, true⟩
      [⟨"e1", "standup", "", 36000000, 39600000, [], none⟩]
      86400000 (86400000 + 30 * 60000)).hasConflicts = false ∧
    smartSchedule ⟨true, true, true, true⟩
      [⟨"e1", "standup", "", 36000000, 39600000, [], none⟩] 0 "new"
      { title := "t", description := "d", duration := 30, attendees := [],
        location := none, preferredTimes := [86400000], timeRange := none,
        workingHours := none, bufferTime := none } =
      { success := true,
        event := some (createEvent "new" "t" "d" 86400000 (86400000 + 30 * 60000) [] none),
        alternativeTimes := none,
        message := "Event scheduled successfully for " ++ toString (86400000 : Int) } := by
  refine ⟨rfl, by decide, ?_⟩
  exact claim6_preferred_time_first ⟨true, true, true, true⟩
    [⟨"e1", "standup", "", 36000000, 39600000, [], none⟩] 0 "new"
    { title := "t", description := "d", duration := 30, attendees := [],
      location := none, preferredTimes := [86400000], timeRange := none,
      workingHours := none, bufferTime := none } 86400000 [] rfl (by decide)

/-! ## C7 — rescheduling under conflict checking -/

/-- C7 counterexample: the conflict check does NOT skip the event's own
current slot.  Rescheduling the event `[10:00,11:00)` to 10:30 (still
overlapping itself) is rejected, with the event itself reported as the
conflict and the store untouched — under the claim, the own slot would be
skipped and the reschedule would succeed. -/
theorem claim7_reschedule_counterexample :
    (rescheduleEvent ⟨true, true, true, true⟩
      [⟨"e1", "standup", "", 36000000, 39600000, [], none⟩]
      "e1" 37800000 true).1.success = false ∧
    (rescheduleEvent ⟨true, true, true, true⟩
      [⟨"e1", "standup", "", 36000000, 39600000, [], none⟩]
      "e1" 37800000 true).1.conflicts =
      some [⟨"e1", "standup", "", 36000000, 39600000, [], none⟩] ∧
    (rescheduleEvent ⟨true, true, true, true⟩
      [⟨"e1", "standup", "", 36000000, 39600000, [], none⟩]
      "e1" 37800000 true).2 =
      [⟨"e1", "standup", "", 36000000, 39600000, [], none⟩] :=
  ⟨by decide, by decide, by decide⟩

/-- C7 amended: when conflict-checking is enabled, the new window is checked
against the whole calendar — including the event's own current slot, which
is NOT skipped; the update is committed exactly when checking is disabled or
no conflict is found, and on conflict the conflicting events are returned
and the store is not mutated. -/
theorem claim7_reschedule_amended (flags : FetchFlags) (store : List CalendarEvent)
    (eventId : String) (newStartTime : Int) (flag : Bool) (ev : CalendarEvent)
    (hall : flags.eventsAllOk = true) (hupd : flags.updateOk = true)
    (hfind : store.find? (fun e' => e'.id == eventId) = some ev) :
    ((flag = true →
      (checkConflicts flags store newStartTime
        (newStartTime + (ev.stop - ev.start))).hasConflicts = true →
      (rescheduleEvent flags store eventId newStartTime flag).1.success = false ∧
      (rescheduleEvent flags store eventId newStartTime flag).1.conflicts =
        some (checkConflicts flags store newStartTime
          (newStartTime + (ev.stop - ev.start))).conflicts ∧
      (rescheduleEvent flags store eventId newStartTime flag).2 = store)) ∧
    ((flag = false ∨
      (checkConflicts flags store newStartTime
        (newStartTime + (ev.stop - ev.start))).hasConflicts = false) →
      (rescheduleEvent flags store eventId newStartTime flag).1.success = true ∧
      (rescheduleEvent flags store eventId newStartTime flag).2 =
        store.map fun e' =>
          if e'.id == eventId then
            { e' with start := newStartTime,
                      stop := newStartTime + (ev.stop - ev.start) }
          else e') := by
  simp only [rescheduleEvent, getEventsAll, hall, if_true, hfind]
  constructor
  · rintro rfl hc
    simp only [hc, Bool.true_and, if_true]
    refine ⟨?_, ?_, ?_⟩ <;> first | rfl | trivial
  · rintro (rfl | hc)
    · simp only [Bool.false_and, Bool.false_eq_true, if_false, updateEvent, hupd, if_true]
      refine ⟨?_, ?_⟩ <;> first | rfl | trivial
    · simp only [hc, Bool.and_false, Bool.false_eq_true, if_false, updateEvent, hupd,
        if_true]
      refine ⟨?_, ?_⟩ <;> first | rfl | trivial

/-- C7 witness: the amended theorem at the own-slot-overlap input — the
reschedule of `[10:00,11:00)` to 10:30 is rejected with no mutation. -/
theorem claim7_reschedule_amended_witness :
    (⟨true, true, true, true⟩ : FetchFlags).eventsAllOk = true ∧
    ([⟨"e1", "standup", "", 36000000, 39600000, [], none⟩] :
        List CalendarEvent).find? (fun e' => e'.id == "e1") =
      some ⟨"e1", "standup", "", 36000000, 39600000, [], none⟩ ∧
    (checkConflicts ⟨true, true, true, true⟩
      [⟨"e1", "standup", "", 36000000, 39600000, [], none⟩]
      37800000 (37800000 + (39600000 - 36000000))).hasConflicts = true ∧
    (rescheduleEvent ⟨true, true, true, true⟩
      [⟨"e1", "standup", "", 36000000, 39600000, [], none⟩]
      "e1" 37800000 true).1.success = false ∧
    (rescheduleEvent ⟨true, true, true, true⟩
      [⟨"e1", "standup", "", 36000000, 39600000, [], none⟩]
      "e1" 37800000 true).2 =
      [⟨"e1", "standup", "", 36000000, 39600000, [], none⟩] := by
  refine ⟨rfl, by decide, by decide, ?_, ?_⟩
  · exact ((claim7_reschedule_amended ⟨true, true, true, true⟩
      [⟨"e1", "standup", "", 36000000, 39600000, [], none⟩]
      "e1" 37800000 true ⟨"e1", "standup", "", 36000000, 39600000, [], none⟩
      rfl rfl (by decide)).1 rfl (by decide)).1
  · exact ((claim7_reschedule_amended ⟨true, true, true, true⟩
      [⟨"e1", "standup", "", 36000000, 39600000, [], none⟩]
      "e1" 37800000 true ⟨"e1", "standup", "", 36000000, 39600000, [], none⟩
      rfl rfl (by decide)).1 rfl (by decide)).2.2

/-! ## C8 — rescheduling preserves the original duration -/

/-- Patching start/end by id rewrites exactly the found event's slot, and the
re-fetch finds the patched event. -/
theorem find?_updateEvent (store : List CalendarEvent) (eventId : String)
    (s e : Int) (ev : CalendarEvent)
    (h : store.find? (fun e' => e'.id == eventId) = some ev) :
    (store.map fun e' =>
        if e'.id == eventId then { e' with start := s, stop := e } else e').find?
      (fun e' => e'.id == eventId) = some { ev with start := s, stop := e } := by
  induction store with
  | nil => simp at h
  | cons a l ih =>
    rw [List.map_cons]
    cases ha : (a.id == eventId) with
    | true =>
      rw [List.find?_cons_of_pos l ha] at h
      injection h with h
      subst h
      rw [if_pos rfl]
      exact List.find?_cons_of_pos _ ha
    | false =>
      rw [List.find?_cons_of_neg l (by simp [ha])] at h
      rw [if_neg (by simp)]
      rw [List.find?_cons_of_neg _ (by simp [ha])]
      exact ih h

/-- C8: whenever `rescheduleEvent` succeeds, the returned event starts at the
new start time and ends exactly `originalDuration` later — the duration is
preserved for every new start time. -/
theorem claim8_duration_preserved (flags : FetchFlags) (store : List CalendarEvent)
    (eventId : String) (newStartTime : Int) (flag : Bool) (ev : CalendarEvent)
    (hall : flags.eventsAllOk = true)
    (hfind : store.find? (fun e' => e'.id == eventId) = some ev)
    (hsucc : (rescheduleEvent flags store eventId newStartTime flag).1.success = true) :
    ∃ e', (rescheduleEvent flags store eventId newStartTime flag).1.event = some e' ∧
      e'.start = newStartTime ∧
      e'.stop - e'.start = ev.stop - ev.start := by
  simp only [rescheduleEvent, getEventsAll, hall, if_true, hfind] at hsucc ⊢
  by_cases hflag : (flag &&
      (checkConflicts flags store newStartTime
        (newStartTime + (ev.stop - ev.start))).hasConflicts) = true
  · simp [hflag] at hsucc
  · simp only [Bool.not_eq_true] at hflag
    simp only [hflag, Bool.false_eq_true, if_false] at hsucc ⊢
    cases hupd : flags.updateOk with
    | false => simp [updateEvent, hupd] at hsucc
    | true =>
      simp only [updateEvent, hupd, if_true]
      refine ⟨{ ev with start := newStartTime,
                        stop := newStartTime + (ev.stop - ev.start) }, ?_, rfl,
        show newStartTime + (ev.stop - ev.start) - newStartTime = ev.stop - ev.start
          from by omega⟩
      exact find?_updateEvent store eventId _ _ ev hfind

/-- C8 witness: a 45-minute event `[0, 45min)` rescheduled to 02:00 is still
exactly 45 minutes long. -/
theorem claim8_duration_preserved_witness :
    (⟨true, true, true, true⟩ : FetchFlags).eventsAllOk = true ∧
    ([⟨"e1", "spar", "", 0, 2700000, [], none⟩] :
        List CalendarEvent).find? (fun e' => e'.id == "e1") =
      some ⟨"e1", "spar", "", 0, 2700000, [], none⟩ ∧
    (rescheduleEvent ⟨true, true, true, true⟩
      [⟨"e1", "spar", "", 0, 2700000, [], none⟩]
      "e1" 7200000 true).1.success = true ∧
    ∃ e', (rescheduleEvent ⟨true, true, true, true⟩
        [⟨"e1", "spar", "", 0, 2700000, [], none⟩]
        "e1" 7200000 true).1.event = some e' ∧
      e'.start = 7200000 ∧ e'.stop - e'.start = 2700000 - 0 := by
  refine ⟨rfl, by decide, by decide, ?_⟩
  exact claim8_duration_preserved ⟨true, true, true, true⟩
    [⟨"e1", "spar", "", 0, 2700000, [], none⟩] "e1" 7200000 true
    ⟨"e1", "spar", "", 0, 2700000, [], none⟩ rfl (by decide) (by decide)

/-! ## C10 — a failed fetch is indistinguishable from a free slot -/

/-- When the events fetch fails, `getEvents` swallows the error and returns
`[]`, so `checkConflicts` takes its no-conflict branch — not its own
(unreachable) catch. -/
theorem checkConflicts_fetch_fail (flags : FetchFlags) (store : List CalendarEvent)
    (s e : Int) (h : flags.eventsRangeOk = false) :
    checkConflicts flags store s e =
      { hasConflicts := false, conflicts := [], suggestions := [],
        message := "No conflicts detected. Time slot is available." } := by
  simp [checkConflicts, getEvents, h]

/-- C10 counterexample: with the fetch failing on a store that does conflict,
the message is the ordinary no-conflict message, not
`'Error checking conflicts'` — the catch branch that would produce the
claimed message is unreachable because `getEvents` swallows its errors. -/
theorem claim10_error_message_counterexample :
    (checkConflicts ⟨false, true, true, true⟩
      [⟨"e1", "standup", "", 36000000, 39600000, [], none⟩]
      37800000 41400000).hasConflicts = false ∧
    (checkConflicts ⟨false, true, true, true⟩
      [⟨"e1", "standup", "", 36000000, 39600000, [], none⟩]
      37800000 41400000).message = "No conflicts detected. Time slot is available." ∧
    (checkConflicts ⟨false, true, true, true⟩
      [⟨"e1", "standup", "", 36000000, 39600000, [], none⟩]
      37800000 41400000).message ≠ "Error checking conflicts" :=
  ⟨by decide, by decide, by decide⟩

/-- C10 amended: if the events fetch inside `checkConflicts` fails, the
failure is swallowed (`getEvents` returns `[]`) and `checkConflicts` reports
`hasConflicts := false` with empty conflicts and the ordinary no-conflict
message — indistinguishable via `hasConflicts` from a genuinely free slot —
so `smartSchedule` books the first preferred time and `rescheduleEvent`
commits its update as if no conflict existed. -/
theorem claim10_error_swallowed (flags : FetchFlags) (store : List CalendarEvent)
    (s e : Int) (hfail : flags.eventsRangeOk = false)
    (now : Int) (freshId : String) (input : SmartScheduleInput) (t : Int)
    (rest : List Int) (hp : input.preferredTimes = t :: rest)
    (store2 : List CalendarEvent) (eventId : String) (newStart : Int)
    (ev : CalendarEvent) (hall : flags.eventsAllOk = true)
    (hupd : flags.updateOk = true)
    (hfind : store2.find? (fun e' => e'.id == eventId) = some ev) :
    (checkConflicts flags store s e).hasConflicts = false ∧
    (checkConflicts flags store s e).conflicts = [] ∧
    (checkConflicts flags store s e).message =
      "No conflicts detected. Time slot is available." ∧
    (smartSchedule flags store now freshId input).success = true ∧
    (smartSchedule flags store now freshId input).event =
      some (createEvent freshId input.title input.description t
        (t + input.duration * 60000) input.attendees input.location) ∧
    (rescheduleEvent flags store2 eventId newStart true).1.success = true := by
  have hcc := checkConflicts_fetch_fail flags store s e hfail
  have hsmart : smartSchedule flags store now freshId input =
      { success := true,
        event := some (createEvent freshId input.title input.description t
          (t + input.duration * 60000) input.attendees input.location),
        alternativeTimes := none,
        message := "Event scheduled successfully for " ++ toString t } := by
    simp only [smartSchedule, hp, tryPreferredTimes,
      checkConflicts_fetch_fail flags store _ _ hfail, Bool.false_eq_true, if_false]
  have hres : (rescheduleEvent flags store2 eventId newStart true).1.success = true ∧
      (rescheduleEvent flags store2 eventId newStart true).2 =
        store2.map fun e' =>
          if e'.id == eventId then
            { e' with start := newStart, stop := newStart + (ev.stop - ev.start) }
          else e' := by
    simp only [rescheduleEvent, getEventsAll, hall, if_true, hfind,
      checkConflicts_fetch_fail flags store2 _ _ hfail, Bool.and_false,
      Bool.false_eq_true, if_false, updateEvent, hupd]
    constructor <;> first | rfl | trivial
  exact ⟨by rw [hcc], by rw [hcc], by rw [hcc], by rw [hsmart], by rw [hsmart], hres.1⟩

/-- C10 witness: the fetch fails while the store holds a genuinely
conflicting event; `smartSchedule` books the conflicting preferred time
anyway and `rescheduleEvent` commits anyway. -/
theorem claim10_error_swallowed_witness :
    (⟨false, true, true, true⟩ : FetchFlags).eventsRangeOk = false ∧
    ({ title := "t", description := "d", duration := 30, attendees := [],
       location := none, preferredTimes := [37800000], timeRange := none,
       workingHours := none, bufferTime := none } : SmartScheduleInput).preferredTimes =
      [(37800000 : Int)] ∧
    (smartSchedule ⟨false, true, true, true⟩
      [⟨"e1", "standup", "", 36000000, 39600000, [], none⟩] 0 "new"
      { title := "t", description := "d", duration := 30, attendees := [],
        location := none, preferredTimes := [37800000], timeRange := none,
        workingHours := none, bufferTime := none }).success = true ∧
    (rescheduleEvent ⟨false, true, true, true⟩
      [⟨"e1", "standup", "", 36000000, 39600000, [], none⟩]
      "e1" 37800000 true).1.success = true := by
  refine ⟨rfl, rfl, ?_, ?_⟩
  · exact (claim10_error_swallowed ⟨false, true, true, true⟩
      [⟨"e1", "standup", "", 36000000, 39600000, [], none⟩] 0 0 rfl 0 "new"
      { title := "t", description := "d", duration := 30, attendees := [],
        location := none, preferredTimes := [37800000], timeRange := none,
        workingHours := none, bufferTime := none } 37800000 [] rfl
      [⟨"e1", "standup", "", 36000000, 39600000, [], none⟩] "e1" 37800000
      ⟨"e1", "standup", "", 36000000, 39600000, [], none⟩ rfl rfl
      (by decide)).2.2.2.1
  · exact (claim10_error_swallowed ⟨false, true, true, true⟩
      [⟨"e1", "standup", "", 36000000, 39600000, [], none⟩] 0 0 rfl 0 "new"
      { title := "t", description := "d", duration := 30, attendees := [],
        location := none, preferredTimes := [37800000], timeRange := none,
        workingHours := none, bufferTime := none } 37800000 [] rfl
      [⟨"e1", "standup", "", 36000000, 39600000, [], none⟩] "e1" 37800000
      ⟨"e1", "standup", "", 36000000, 39600000, [], none⟩ rfl rfl
      (by decide)).2.2.2.2.2

end Jarwik
